import Mathlib

/-!
Verification model of the configuration data model and persistence engine of
the OPNsense OpenVPN GUI repository (`models.py`).

JSON payloads are modelled by the inductive type `JValue`; Python dicts are
association lists preserving insertion order (`Jobj`), with first-match lookup,
in-place replacement on assignment and append-at-end on insertion of a missing
key, matching CPython dict semantics.  Python exceptions raised by the manager
are modelled with `Except String`; crashes on structurally ill-typed payloads
(e.g. iterating a non-list, `.get` on a non-dict) are modelled with `Option`
(`none` = uncaught TypeError/AttributeError).  `uuid.uuid4().hex` values are
passed in as explicit `fresh` parameters.  Python `str.strip`, `str.lower` and
`str(int)` are modelled by `pyStrip`, `pyLower` and `natStr`.
-/

/-- JSON value, mirroring what `json.load` can produce for this application
(floats do not occur in the stored payloads; numbers are integers). -/
inductive JValue : Type where
  | null : JValue
  | bool (b : Bool) : JValue
  | num (n : Int) : JValue
  | str (s : String) : JValue
  | arr (items : List JValue) : JValue
  | obj (fields : List (String × JValue)) : JValue

/-- A Python dict with JSON contents: ordered association list. -/
abbrev Jobj := List (String × JValue)

/-- Python truthiness of a JSON value (`bool(v)`). -/
def JValue.truthy : JValue → Bool
  | .null => false
  | .bool b => b
  | .num n => if n = 0 then false else true
  | .str s => if s = "" then false else true
  | .arr [] => false
  | .arr (_ :: _) => true
  | .obj [] => false
  | .obj (_ :: _) => true

/-- `d.get(key)` on a Python dict (first match; `none` = key absent). -/
def objGet : Jobj → String → Option JValue
  | [], _ => none
  | (k, v) :: rest, key => if k = key then some v else objGet rest key

/-- `d.get(key, dflt)`. -/
def objGetD (o : Jobj) (key : String) (dflt : JValue) : JValue :=
  (objGet o key).getD dflt

/-- `key in d`. -/
def objHasKey (o : Jobj) (key : String) : Bool :=
  (objGet o key).isSome

/-- `d[key] = v`: replace in place if the key is present, else append. -/
def objSet : Jobj → String → JValue → Jobj
  | [], key, v => [(key, v)]
  | (k, w) :: rest, key, v =>
    if k = key then (k, v) :: rest else (k, w) :: objSet rest key v

/-- `x or dflt` where `x` is `d.get(key)` (Python `or` on truthiness). -/
def jTruthyOr (v : Option JValue) (dflt : JValue) : JValue :=
  match v with
  | some x => if x.truthy then x else dflt
  | none => dflt

/-- Python `s or dflt` for an optional string argument. -/
def strOr (o : Option String) (dflt : String) : String :=
  match o with
  | some s => if s = "" then dflt else s
  | none => dflt

/-- Truthiness of an `Optional[str]` (`None` and `""` are falsy). -/
def pyOptTruthy : Option String → Bool
  | some s => if s = "" then false else true
  | none => false

/-- Python `str.lower()` (per-character lowercasing). -/
def pyLower (s : String) : String := String.mk (s.data.map Char.toLower)

/-- Python `str.strip()` (drop leading and trailing whitespace). -/
def pyStrip (s : String) : String :=
  String.mk (((s.data.dropWhile Char.isWhitespace).reverse.dropWhile Char.isWhitespace).reverse)

/-- Decimal digit characters of `n`, most significant first; the fuel is an
upper bound on the number of divisions by 10 and is never exhausted for
`fuel > n`. -/
def decCharsAux : Nat → Nat → List Char
  | 0, _ => []
  | fuel + 1, n =>
    if n < 10 then [Nat.digitChar n]
    else decCharsAux fuel (n / 10) ++ [Nat.digitChar (n % 10)]

/-- Python `str(n)` for a natural number (decimal). -/
def natStr (n : Nat) : String := String.mk (decCharsAux (n + 1) n)

mutual
/-- Python `repr` of a parsed-JSON value (used only through `jToStr` when a
non-string value reaches a `str(...)` coercion; no claim depends on the exact
rendering of containers). -/
def jRepr : JValue → String
  | .null => "None"
  | .bool b => if b then "True" else "False"
  | .num n => toString n
  | .str s => "\x27" ++ s ++ "\x27"
  | .arr xs => "[" ++ jReprArr xs ++ "]"
  | .obj fs => "\x7b" ++ jReprObj fs ++ "\x7d"
termination_by v => sizeOf v

/-- Comma-separated reprs of a list of values. -/
def jReprArr : List JValue → String
  | [] => ""
  | [x] => jRepr x
  | x :: y :: rest => jRepr x ++ ", " ++ jReprArr (y :: rest)
termination_by xs => sizeOf xs

/-- Comma-separated `key: value` reprs of a dict body. -/
def jReprObj : List (String × JValue) → String
  | [] => ""
  | [(k, v)] => "\x27" ++ k ++ "\x27: " ++ jRepr v
  | (k, v) :: y :: rest => "\x27" ++ k ++ "\x27: " ++ jRepr v ++ ", " ++ jReprObj (y :: rest)
termination_by xs => sizeOf xs
end

/-- Python `str(v)` of a parsed-JSON value. -/
def jToStr : JValue → String
  | .str s => s
  | v => jRepr v

/-- `DEFAULT_PROFILE_NAME` from `models.py`. -/
def DEFAULT_PROFILE_NAME : String := "Default"

/-- `DEFAULT_CONNECTION` from `models.py`. -/
def DEFAULT_CONNECTION : Jobj :=
  [("ApiBaseUrl", .str "https://firewall.example.com:4443"),
   ("ApiKey", .str ""),
   ("ApiSecret", .str ""),
   ("SshHost", .str "firewall.example.com"),
   ("SshUser", .str "root"),
   ("SshPass", .str "")]

/-- `DEFAULT_AUTOMATION` from `models.py`. -/
def DEFAULT_AUTOMATION : Jobj :=
  [("GroupName", .str "vpn-users"),
   ("GroupDesc", .str "VPN users (auto-generated)"),
   ("VpnTunnelNetwork", .str "10.99.0.0/24"),
   ("VpnLocalNetwork", .str "192.168.1.0/24"),
   ("StaticKeyMode", .str "tls-crypt"),
   ("VpnDevType", .str "tun"),
   ("VpnTopology", .str "subnet"),
   ("InterfaceDesc", .str "VPN_TUNNEL_AUTO"),
   ("NamePatterns", .obj
     [("CaPrefix", .str "AutoCA_VPN"),
      ("ServerCn", .str "AutoVPN_Gateway"),
      ("StaticKeyPrefix", .str "AutoTLSKey"),
      ("InstancePrefix", .str "AutoVPN_Server")]),
   ("Lifetimes", .obj
     [("CALifetimeDays", .num 3650),
      ("ServerCertLifetimeDays", .num 3650),
      ("ClientCertLifetimeDays", .num 3650)]),
   ("Firewall", .obj
     [("VpnListenPort", .str "1194"),
      ("VpnProto", .str "udp4")])]

/-- The character `{` (written by code point to keep it out of string text). -/
def lbrace : Char := Char.ofNat 123

/-- The character `}`. -/
def rbrace : Char := Char.ofNat 125

/-- Python `fmt.format(arg)` restricted to plain positional placeholders:
every occurrence of the two-character placeholder is replaced by `arg`. -/
def pyFormatChars (arg : String) : List Char → List Char
  | [] => []
  | [c] => [c]
  | c :: d :: rest =>
    if c = lbrace ∧ d = rbrace then arg.data ++ pyFormatChars arg rest
    else c :: pyFormatChars arg (d :: rest)

/-- Python `"{}" in fmt` (two-character substring test). -/
def hasPlaceholder : List Char → Bool
  | [] => false
  | [_] => false
  | c :: d :: rest => (c = lbrace ∧ d = rbrace) || hasPlaceholder (d :: rest)

/-- `_format_copy_name(base, fmt, suffix_index)` from `models.py`. -/
def format_copy_name (base fmt : String) (suffix_index : Nat) : String :=
  if suffix_index ≤ 1 then
    if hasPlaceholder fmt.data then
      base ++ String.mk (pyFormatChars "" fmt.data)
    else base ++ fmt
  else
    if hasPlaceholder fmt.data then
      base ++ String.mk (pyFormatChars (natStr suffix_index) fmt.data)
    else if fmt.data.getLast? = some ')' then
      base ++ String.mk fmt.data.dropLast ++ " " ++ natStr suffix_index ++ ")"
    else base ++ fmt ++ " " ++ natStr suffix_index

/-- The `while True` search of `make_unique_name`, with explicit fuel; the
fuel passed by `make_unique_name` is proved sufficient below (some candidate
among the first `taken.length + 1` is always free), so the fuel-exhausted
branch is unreachable. -/
def makeUniqueNameLoop (candidate_base fmt : String) (taken_lower : List String) :
    Nat → Nat → String
  | 0, i => format_copy_name candidate_base fmt i
  | fuel + 1, i =>
    let candidate := format_copy_name candidate_base fmt i
    if pyLower candidate ∈ taken_lower then
      makeUniqueNameLoop candidate_base fmt taken_lower fuel (i + 1)
    else candidate

/-- `make_unique_name(base, taken, fmt)` from `models.py` (the source gives
`fmt` the default value `" (copy)"`, which every caller uses). -/
def make_unique_name (base : String) (taken : List String) (fmt : String) : String :=
  let candidate_base := if pyStrip base = "" then DEFAULT_PROFILE_NAME else pyStrip base
  let taken_lower := taken.map pyLower
  if pyLower candidate_base ∈ taken_lower then
    makeUniqueNameLoop candidate_base fmt taken_lower (taken.length + 1) 1
  else candidate_base

/-- The `User` dataclass. `original_username` is the transient rename marker. -/
structure User where
  username : String
  password : String
  full_name : String
  email : String
  original_username : Option String
deriving DecidableEq

/-- `User.to_dict`. -/
def User.to_dict (u : User) : Jobj :=
  [("username", .str u.username),
   ("password", .str u.password),
   ("full_name", .str u.full_name),
   ("email", .str u.email)]

/-- `User.to_legacy_dict`. -/
def User.to_legacy_dict (u : User) : Jobj :=
  [("Name", .str u.username),
   ("Password", .str u.password),
   ("Full", .str u.full_name),
   ("Email", .str u.email)]

/-- `User.clone` (drops the transient rename marker). -/
def User.clone (u : User) : User :=
  ⟨u.username, u.password, u.full_name, u.email, none⟩

/-- `User.from_dict` (accepts both the canonical and the legacy field names). -/
def User.from_dict (payload : Jobj) : User :=
  { username := jToStr (objGetD payload "username" (objGetD payload "Name" (.str ""))),
    password := jToStr (objGetD payload "password" (objGetD payload "Password" (.str ""))),
    full_name := jToStr (objGetD payload "full_name" (objGetD payload "Full" (.str ""))),
    email := jToStr (objGetD payload "email" (objGetD payload "Email" (.str ""))),
    original_username := none }

/-- The `OPNsenseProfile` dataclass. -/
structure OPNsenseProfile where
  id : String
  name : String
  settings : Jobj

/-- `OPNsenseProfile.to_dict`. -/
def OPNsenseProfile.to_dict (p : OPNsenseProfile) : Jobj :=
  [("id", .str p.id), ("name", .str p.name), ("settings", .obj p.settings)]

/-- `OPNsenseProfile.clone(new_id=..., name=...)`; the keyword arguments are
combined with the existing values by Python `or`. -/
def OPNsenseProfile.clone (p : OPNsenseProfile) (new_id name : Option String) :
    OPNsenseProfile :=
  ⟨strOr new_id p.id, strOr name p.name, p.settings⟩

/-- The `conn.setdefault(key, value)` loop of `OPNsenseProfile.from_dict`:
append each missing default key at the end, leave present keys untouched. -/
def setdefaults (conn : Jobj) : Jobj → Jobj
  | [] => conn
  | (k, v) :: rest =>
    setdefaults (if objHasKey conn k then conn else conn ++ [(k, v)]) rest

mutual

/-- The nested `_merge_defaults(target, defaults)` of
`OPNsenseProfile.from_dict`: a missing default key is copied in; a present key
whose value and default value are both dicts is merged recursively; any other
present key is left untouched. -/
def mergeDefaults : Jobj → Jobj → Jobj
  | t, [] => t
  | t, (k, dv) :: rest =>
    mergeDefaults
      (match objGet t k with
       | none => objSet t k dv
       | some tv => mergeValue t k dv tv) rest

/-- The present-key case of `_merge_defaults`: recurse when the default value
and the present value are both dicts, otherwise leave the target untouched. -/
def mergeValue : Jobj → String → JValue → JValue → Jobj
  | t, k, .obj dvo, .obj tvo => objSet t k (.obj (mergeDefaults tvo dvo))
  | t, _, _, _ => t

end

/-- One step of `_merge_defaults`: how a single default pair lands in the
target dict. -/
def mergeStep (t : Jobj) (k : String) (dv : JValue) : Jobj :=
  match objGet t k with
  | none => objSet t k dv
  | some tv => mergeValue t k dv tv

/-- The connection block of `OPNsenseProfile.from_dict`: replace a missing or
non-dict `connection` with the default table, backfill a present dict. -/
def backfillConnection (settings : Jobj) : Jobj :=
  match objGet settings "connection" with
  | some (.obj conn) =>
    objSet settings "connection" (.obj (setdefaults conn DEFAULT_CONNECTION))
  | _ => objSet settings "connection" (.obj DEFAULT_CONNECTION)

/-- The automation block of `OPNsenseProfile.from_dict`. -/
def backfillAutomation (settings : Jobj) : Jobj :=
  match objGet settings "automation" with
  | some (.obj automation) =>
    objSet settings "automation" (.obj (mergeDefaults automation DEFAULT_AUTOMATION))
  | _ => objSet settings "automation" (.obj DEFAULT_AUTOMATION)

/-- The settings normalisation of `OPNsenseProfile.from_dict`: the connection
block runs first, then the automation block, mutating the same dict. -/
def backfillSettings (settings : Jobj) : Jobj :=
  backfillAutomation (backfillConnection settings)

/-- The connection dict the backfill stores. -/
def connResult (settings : Jobj) : Jobj :=
  match objGet settings "connection" with
  | some (.obj conn) => setdefaults conn DEFAULT_CONNECTION
  | _ => DEFAULT_CONNECTION

/-- The automation dict the backfill stores. -/
def autoResult (settings : Jobj) : Jobj :=
  match objGet settings "automation" with
  | some (.obj automation) => mergeDefaults automation DEFAULT_AUTOMATION
  | _ => DEFAULT_AUTOMATION

/-- `OPNsenseProfile.from_dict`; `fresh` stands for the `uuid.uuid4().hex`
generated when the payload has no truthy id.  The result is `none` when the
payload carries a truthy non-dict `settings` value, on which the Python code
raises a TypeError. -/
def OPNsenseProfile.from_dict (fresh : String) (payload : Jobj) :
    Option OPNsenseProfile :=
  let profile_id := jToStr (jTruthyOr (objGet payload "id") (.str fresh))
  let name := jTruthyOr (objGet payload "name") (.str DEFAULT_PROFILE_NAME)
  match jTruthyOr (objGet payload "settings") (.obj []) with
  | .obj settings => some ⟨profile_id, jToStr name, backfillSettings settings⟩
  | _ => none

/-- The `UserProfile` dataclass. -/
structure UserProfile where
  id : String
  name : String
  users : List User

/-- `UserProfile.to_dict`. -/
def UserProfile.to_dict (p : UserProfile) : Jobj :=
  [("id", .str p.id), ("name", .str p.name),
   ("users", .arr (p.users.map (fun u => .obj u.to_dict)))]

/-- `UserProfile.clone(new_id=..., name=...)`. -/
def UserProfile.clone (p : UserProfile) (new_id name : Option String) : UserProfile :=
  ⟨strOr new_id p.id, strOr name p.name, p.users.map User.clone⟩

/-- The `[User.from_dict(item) for item in users_payload]` comprehension;
`none` when an item is not a dict (Python raises). -/
def usersFromPayload : List JValue → Option (List User)
  | [] => some []
  | .obj o :: rest => (usersFromPayload rest).map (fun us => User.from_dict o :: us)
  | _ :: _ => none

/-- `UserProfile.from_dict`; `none` when the `users` value is a truthy
non-list or contains a non-dict item (Python raises). -/
def UserProfile.from_dict (fresh : String) (payload : Jobj) : Option UserProfile :=
  let profile_id := jToStr (jTruthyOr (objGet payload "id") (.str fresh))
  let name := jTruthyOr (objGet payload "name") (.str DEFAULT_PROFILE_NAME)
  match jTruthyOr (objGet payload "users") (.arr []) with
  | .arr items => (usersFromPayload items).map (fun users => ⟨profile_id, jToStr name, users⟩)
  | _ => none

/-- The four notification kinds of `ConfigManager._EVENTS`. -/
inductive Event : Type where
  | opnsense_profiles_changed : Event
  | user_profiles_changed : Event
  | user_list_changed : Event
  | selection_changed : Event
deriving DecidableEq

/-- The mutable state of a `ConfigManager` (the file path and the listener
registry carry no model-relevant state). -/
structure ConfigManager where
  opnsense_profiles : List OPNsenseProfile
  user_profiles : List UserProfile
  selected_opnsense_profile_id : Option String
  selected_user_profile_id : Option String

/-- Outcome of one manager operation: the state after the call, the
notifications raised in order, and the returned value or raised error. -/
structure OpOutcome (α : Type) where
  state : ConfigManager
  events : List Event
  result : Except String α

/-- The lookup loop of `get_opnsense_profile` (first id match). -/
def findOpnsense : List OPNsenseProfile → String → Option OPNsenseProfile
  | [], _ => none
  | p :: rest, pid => if p.id = pid then some p else findOpnsense rest pid

/-- The lookup loop of `get_user_profile`. -/
def findUserProfile : List UserProfile → String → Option UserProfile
  | [], _ => none
  | p :: rest, pid => if p.id = pid then some p else findUserProfile rest pid

/-- `ConfigManager.get_opnsense_profile`. -/
def ConfigManager.get_opnsense_profile (m : ConfigManager) (profile_id : String) :
    Except String OPNsenseProfile :=
  match findOpnsense m.opnsense_profiles profile_id with
  | some p => .ok p
  | none => .error ("OPNsense profile \x27" ++ profile_id ++ "\x27 was not found.")

/-- `ConfigManager.get_user_profile`. -/
def ConfigManager.get_user_profile (m : ConfigManager) (profile_id : String) :
    Except String UserProfile :=
  match findUserProfile m.user_profiles profile_id with
  | some p => .ok p
  | none => .error ("User profile \x27" ++ profile_id ++ "\x27 was not found.")

/-- `ConfigManager.get_selected_opnsense_profile` (`None` when the pointer is
unset, falsy or stale). -/
def ConfigManager.get_selected_opnsense_profile (m : ConfigManager) :
    Option OPNsenseProfile :=
  if pyOptTruthy m.selected_opnsense_profile_id then
    findOpnsense m.opnsense_profiles (m.selected_opnsense_profile_id.getD "")
  else none

/-- `ConfigManager.get_selected_user_profile`. -/
def ConfigManager.get_selected_user_profile (m : ConfigManager) : Option UserProfile :=
  if pyOptTruthy m.selected_user_profile_id then
    findUserProfile m.user_profiles (m.selected_user_profile_id.getD "")
  else none

/-- The loop of `_ensure_unique_opnsense_name`: first case-insensitive name
collision (skipping a truthy `exclude_id`) yields the error message. -/
def ensureUniqueName (kindMsgPre kindMsgPost : String) (name : String)
    (exclude_id : Option String) : List (String × String) → Option String
  | [] => none
  | (pid, pname) :: rest =>
    if pyOptTruthy exclude_id ∧ pid = exclude_id.getD "" then
      ensureUniqueName kindMsgPre kindMsgPost name exclude_id rest
    else if pyLower pname = pyLower name then
      some (kindMsgPre ++ name ++ kindMsgPost)
    else ensureUniqueName kindMsgPre kindMsgPost name exclude_id rest

/-- `ConfigManager._ensure_unique_opnsense_name` (`some msg` = raised error). -/
def ConfigManager.ensure_unique_opnsense_name (m : ConfigManager) (name : String)
    (exclude_id : Option String) : Option String :=
  ensureUniqueName "An OPNsense profile named \x27" "\x27 already exists." name
    exclude_id (m.opnsense_profiles.map (fun p => (p.id, p.name)))

/-- `ConfigManager._ensure_unique_user_profile_name`. -/
def ConfigManager.ensure_unique_user_profile_name (m : ConfigManager) (name : String)
    (exclude_id : Option String) : Option String :=
  ensureUniqueName "A user profile named \x27" "\x27 already exists." name
    exclude_id (m.user_profiles.map (fun p => (p.id, p.name)))

/-- The loop of `_ensure_unique_username` (skips a truthy `exclude` username
case-insensitively, errors on a case-insensitive collision). -/
def ensureUniqueUsername (profileName username : String) (exclude : Option String) :
    List User → Option String
  | [] => none
  | u :: rest =>
    if pyOptTruthy exclude ∧ pyLower u.username = pyLower (exclude.getD "") then
      ensureUniqueUsername profileName username exclude rest
    else if pyLower u.username = pyLower username then
      some ("User \x27" ++ username ++ "\x27 already exists in profile \x27" ++
        profileName ++ "\x27.")
    else ensureUniqueUsername profileName username exclude rest

/-- In-place mutation of the first profile with the given id (Python mutates
the object returned by `get_opnsense_profile`, which is the first match). -/
def updateFirstOpnsense : List OPNsenseProfile → String →
    (OPNsenseProfile → OPNsenseProfile) → List OPNsenseProfile
  | [], _, _ => []
  | p :: rest, pid, f =>
    if p.id = pid then f p :: rest else p :: updateFirstOpnsense rest pid f

/-- In-place mutation of the first user profile with the given id. -/
def updateFirstUserProfile : List UserProfile → String →
    (UserProfile → UserProfile) → List UserProfile
  | [], _, _ => []
  | p :: rest, pid, f =>
    if p.id = pid then f p :: rest else p :: updateFirstUserProfile rest pid f

/-- `ConfigManager.create_opnsense_profile`; `fresh` is the generated id. -/
def ConfigManager.create_opnsense_profile (m : ConfigManager) (fresh : String)
    (name : String) (settings : Option Jobj) : OpOutcome OPNsenseProfile :=
  let clean_name := if pyStrip name = "" then DEFAULT_PROFILE_NAME else pyStrip name
  match m.ensure_unique_opnsense_name clean_name none with
  | some msg => ⟨m, [], .error msg⟩
  | none =>
    let payload : Jobj :=
      [("id", .str fresh), ("name", .str clean_name),
       ("settings", .obj (settings.getD []))]
    match OPNsenseProfile.from_dict fresh payload with
    | none => ⟨m, [], .error "unreachable"⟩
    | some profile =>
      let m1 := { m with opnsense_profiles := m.opnsense_profiles ++ [profile] }
      if pyOptTruthy m.selected_opnsense_profile_id then
        ⟨m1, [.opnsense_profiles_changed], .ok profile⟩
      else
        ⟨{ m1 with selected_opnsense_profile_id := some profile.id },
         [.selection_changed, .opnsense_profiles_changed], .ok profile⟩

/-- `ConfigManager.create_user_profile`; the seed users are dict payloads. -/
def ConfigManager.create_user_profile (m : ConfigManager) (fresh : String)
    (name : String) (users : Option (List Jobj)) : OpOutcome UserProfile :=
  let clean_name := if pyStrip name = "" then DEFAULT_PROFILE_NAME else pyStrip name
  match m.ensure_unique_user_profile_name clean_name none with
  | some msg => ⟨m, [], .error msg⟩
  | none =>
    let payload : Jobj :=
      [("id", .str fresh), ("name", .str clean_name),
       ("users", .arr ((users.getD []).map JValue.obj))]
    match UserProfile.from_dict fresh payload with
    | none => ⟨m, [], .error "unreachable"⟩
    | some profile =>
      let m1 := { m with user_profiles := m.user_profiles ++ [profile] }
      if pyOptTruthy m.selected_user_profile_id then
        ⟨m1, [.user_profiles_changed], .ok profile⟩
      else
        ⟨{ m1 with selected_user_profile_id := some profile.id },
         [.selection_changed, .user_profiles_changed], .ok profile⟩

/-- `ConfigManager.rename_opnsense_profile`. -/
def ConfigManager.rename_opnsense_profile (m : ConfigManager)
    (profile_id new_name : String) : OpOutcome Unit :=
  match m.get_opnsense_profile profile_id with
  | .error e => ⟨m, [], .error e⟩
  | .ok _ =>
    let clean_name := pyStrip new_name
    if clean_name = "" then ⟨m, [], .error "Profile name cannot be empty."⟩
    else
      match m.ensure_unique_opnsense_name clean_name (some profile_id) with
      | some msg => ⟨m, [], .error msg⟩
      | none =>
        let renamed := updateFirstOpnsense m.opnsense_profiles profile_id
          (fun p => { p with name := clean_name })
        ⟨{ m with opnsense_profiles := renamed }, [.opnsense_profiles_changed], .ok ()⟩

/-- `ConfigManager.rename_user_profile`. -/
def ConfigManager.rename_user_profile (m : ConfigManager)
    (profile_id new_name : String) : OpOutcome Unit :=
  match m.get_user_profile profile_id with
  | .error e => ⟨m, [], .error e⟩
  | .ok _ =>
    let clean_name := pyStrip new_name
    if clean_name = "" then ⟨m, [], .error "Profile name cannot be empty."⟩
    else
      match m.ensure_unique_user_profile_name clean_name (some profile_id) with
      | some msg => ⟨m, [], .error msg⟩
      | none =>
        let renamed := updateFirstUserProfile m.user_profiles profile_id
          (fun p => { p with name := clean_name })
        ⟨{ m with user_profiles := renamed }, [.user_profiles_changed], .ok ()⟩

/-- `ConfigManager.duplicate_opnsense_profile`; `fresh` is the clone id. -/
def ConfigManager.duplicate_opnsense_profile (m : ConfigManager) (fresh : String)
    (source_profile_id : String) (new_name : Option String) :
    OpOutcome OPNsenseProfile :=
  match m.get_opnsense_profile source_profile_id with
  | .error e => ⟨m, [], .error e⟩
  | .ok source =>
    let taken := m.opnsense_profiles.map (fun p => p.name)
    let base_name :=
      if pyStrip (strOr new_name source.name) = "" then DEFAULT_PROFILE_NAME
      else pyStrip (strOr new_name source.name)
    let duplicate_name := make_unique_name base_name taken " (copy)"
    let clone := source.clone (some fresh) (some duplicate_name)
    let profiles := m.opnsense_profiles ++ [clone]
    ⟨{ m with opnsense_profiles := profiles, selected_opnsense_profile_id := some clone.id },
     [.opnsense_profiles_changed, .selection_changed], .ok clone⟩

/-- `ConfigManager.duplicate_user_profile`; `fresh` is the clone id. -/
def ConfigManager.duplicate_user_profile (m : ConfigManager) (fresh : String)
    (source_profile_id : String) (new_name : Option String) : OpOutcome UserProfile :=
  match m.get_user_profile source_profile_id with
  | .error e => ⟨m, [], .error e⟩
  | .ok source =>
    let taken := m.user_profiles.map (fun p => p.name)
    let base_name :=
      if pyStrip (strOr new_name source.name) = "" then DEFAULT_PROFILE_NAME
      else pyStrip (strOr new_name source.name)
    let duplicate_name := make_unique_name base_name taken " (copy)"
    let clone := source.clone (some fresh) (some duplicate_name)
    let profiles := m.user_profiles ++ [clone]
    ⟨{ m with user_profiles := profiles, selected_user_profile_id := some clone.id },
     [.user_profiles_changed, .selection_changed, .user_list_changed], .ok clone⟩

/-- `ConfigManager.add_user`. -/
def ConfigManager.add_user (m : ConfigManager) (user_profile_id : String)
    (user : User) : OpOutcome Unit :=
  match m.get_user_profile user_profile_id with
  | .error e => ⟨m, [], .error e⟩
  | .ok profile =>
    let username := pyStrip user.username
    if username = "" then ⟨m, [], .error "Username cannot be empty."⟩
    else
      match ensureUniqueUsername profile.name username none profile.users with
      | some msg => ⟨m, [], .error msg⟩
      | none =>
        let updated := updateFirstUserProfile m.user_profiles user_profile_id
          (fun p => { p with users := p.users ++ [User.from_dict user.to_dict] })
        ⟨{ m with user_profiles := updated }, [.user_list_changed], .ok ()⟩

/-- The match loop of `update_user` (first case-insensitive username match). -/
def findUserIdx (original : String) : List User → Option Nat
  | [] => none
  | u :: rest =>
    if pyLower u.username = pyLower original then some 0
    else (findUserIdx original rest).map (· + 1)

/-- `ConfigManager.update_user`. -/
def ConfigManager.update_user (m : ConfigManager) (user_profile_id : String)
    (user : User) : OpOutcome Unit :=
  match m.get_user_profile user_profile_id with
  | .error e => ⟨m, [], .error e⟩
  | .ok profile =>
    let original := pyStrip (strOr user.original_username user.username)
    if original = "" then ⟨m, [], .error "Original username is required."⟩
    else
      let new_username := pyStrip user.username
      if new_username = "" then ⟨m, [], .error "Username cannot be empty."⟩
      else
        match findUserIdx original profile.users with
        | none =>
          ⟨m, [], .error ("User \x27" ++ original ++ "\x27 was not found in profile \x27" ++
            profile.name ++ "\x27.")⟩
        | some match_index =>
          let uniq :=
            if pyLower new_username = pyLower original then none
            else ensureUniqueUsername profile.name new_username (some original) profile.users
          match uniq with
          | some msg => ⟨m, [], .error msg⟩
          | none =>
            let updated := updateFirstUserProfile m.user_profiles user_profile_id
              (fun p => { p with users := p.users.set match_index (User.from_dict user.to_dict) })
            ⟨{ m with user_profiles := updated }, [.user_list_changed], .ok ()⟩

/-- `ConfigManager._resolve_opnsense_profile`. -/
def ConfigManager.resolve_opnsense_profile (m : ConfigManager)
    (profile_id : Option String) : Except String OPNsenseProfile :=
  if pyOptTruthy profile_id then m.get_opnsense_profile (profile_id.getD "")
  else
    match m.get_selected_opnsense_profile with
    | some p => .ok p
    | none =>
      match m.opnsense_profiles with
      | [] => .error "No OPNsense profiles are available."
      | p :: _ => .ok p

/-- `ConfigManager._resolve_user_profile`. -/
def ConfigManager.resolve_user_profile (m : ConfigManager)
    (profile_id : Option String) : Except String UserProfile :=
  if pyOptTruthy profile_id then m.get_user_profile (profile_id.getD "")
  else
    match m.get_selected_user_profile with
    | some p => .ok p
    | none =>
      match m.user_profiles with
      | [] => .error "No user profiles are available."
      | p :: _ => .ok p

/-- The connection dict of one profile as used by the legacy export
(`profile.settings.get("connection", {})`); `none` when the stored value is a
truthy non-dict, on which `dict.update` raises. -/
def connectionObj : OPNsenseProfile → Option Jobj
  | p =>
    match objGet p.settings "connection" with
    | some (.obj c) => some c
    | none => some []
    | some _ => none

/-- The `legacy_profiles` list built by `export_legacy_files`:
`{"ProfileName": name}` updated with the connection dict. -/
def legacyProfilesPayload : List OPNsenseProfile → Option (List JValue)
  | [] => some []
  | p :: rest =>
    match connectionObj p, legacyProfilesPayload rest with
    | some conn, some others =>
      some (.obj (conn.foldl (fun acc kv => objSet acc kv.1 kv.2)
        [("ProfileName", .str p.name)]) :: others)
    | _, _ => none

/-- The contents of the three files written by `export_legacy_files`. -/
structure LegacyExport where
  profiles_file : Jobj
  settings_file : JValue
  users_file : Jobj

/-- `ConfigManager.export_legacy_files(opnsense_profile_id, user_profile_id,
username)`: the outer `Option` is `none` on a Python TypeError (a stored
connection that is a truthy non-dict); otherwise the `Except` carries the
raised `ValueError` or the three produced file contents. -/
def ConfigManager.export_legacy_files (m : ConfigManager)
    (opnsense_profile_id user_profile_id username : Option String) :
    Option (Except String LegacyExport) :=
  match m.opnsense_profiles with
  | [] => some (.error "No OPNsense profiles are available to export.")
  | _ :: _ =>
    match m.resolve_opnsense_profile opnsense_profile_id with
    | .error e => some (.error e)
    | .ok target_opnsense =>
      let resU : Except String (Option UserProfile) :=
        match m.user_profiles with
        | [] => .ok none
        | _ :: _ =>
          match m.resolve_user_profile user_profile_id with
          | .error e => .error e
          | .ok p => .ok (some p)
      match resU with
      | .error e => some (.error e)
      | .ok target_user_profile =>
        match legacyProfilesPayload m.opnsense_profiles with
        | none => none
        | some legacy_profiles =>
          let automation := objGetD target_opnsense.settings "automation" (.obj [])
          let usersRes : Except String (List Jobj) :=
            match target_user_profile with
            | none => .ok []
            | some tup =>
              if pyOptTruthy username then
                match tup.users.find?
                    (fun u => pyLower u.username = pyLower (username.getD "")) with
                | none =>
                  .error ("User \x27" ++ username.getD "" ++
                    "\x27 was not found in profile \x27" ++ tup.name ++ "\x27.")
                | some matched_user => .ok [matched_user.to_legacy_dict]
              else .ok (tup.users.map User.to_legacy_dict)
          match usersRes with
          | .error e => some (.error e)
          | .ok legacy_users_payload =>
            some (.ok
              ⟨[("profiles", .arr legacy_profiles)],
               automation,
               [("users", .arr (legacy_users_payload.map JValue.obj))]⟩)

/-- Selection pointer as stored by `save` (`None` becomes JSON null). -/
def optToJ : Option String → JValue
  | some s => .str s
  | none => .null

/-- The payload `ConfigManager.save` serialises to the primary store. -/
def ConfigManager.save_data (m : ConfigManager) : Jobj :=
  [("opnsense_profiles", .arr (m.opnsense_profiles.map (fun p => .obj p.to_dict))),
   ("user_profiles", .arr (m.user_profiles.map (fun p => .obj p.to_dict))),
   ("selected_opnsense_profile_id", optToJ m.selected_opnsense_profile_id),
   ("selected_user_profile_id", optToJ m.selected_user_profile_id)]

/-- The `[OPNsenseProfile.from_dict(item) for item in opnsense_payload]`
comprehension of `_load_from_payload`; `fo i` is the fresh id available to
item `i`; `none` when an item is not a dict (Python raises). -/
def loadOpnsenseList (fo : Nat → String) : Nat → List JValue → Option (List OPNsenseProfile)
  | _, [] => some []
  | i, .obj o :: rest =>
    match OPNsenseProfile.from_dict (fo i) o, loadOpnsenseList fo (i + 1) rest with
    | some p, some ps => some (p :: ps)
    | _, _ => none
  | _, _ :: _ => none

/-- The user-profile comprehension of `_load_from_payload`. -/
def loadUserProfileList (fu : Nat → String) : Nat → List JValue → Option (List UserProfile)
  | _, [] => some []
  | i, .obj o :: rest =>
    match UserProfile.from_dict (fu i) o, loadUserProfileList fu (i + 1) rest with
    | some p, some ps => some (p :: ps)
    | _, _ => none
  | _, _ :: _ => none

/-- `payload.get(key) or []` followed by iteration: `some items` when the
value is a list or falsy, `none` when iterating it would make the entity
constructors raise. -/
def jItemsOr (v : Option JValue) : Option (List JValue) :=
  match jTruthyOr v (.arr []) with
  | .arr items => some items
  | _ => none

/-- The saved selection pointer check of `_load_from_payload`: keep the saved
pointer when it is truthy and among the valid ids, else coerce to the id of
the first profile. -/
def coerceSelection (saved : Option JValue) (valid_ids : List String)
    (first_id : String) : String :=
  match saved with
  | some (.str s) => if s ≠ "" ∧ s ∈ valid_ids then s else first_id
  | _ => first_id

/-- The default-profile insertion of `_load_from_payload`: an empty loaded
OPNsense collection is replaced by a single default profile built through
`OPNsenseProfile.from_dict`. -/
def defaultedOpnsenseList (d1 : String) : List OPNsenseProfile →
    Option (List OPNsenseProfile)
  | [] =>
    (OPNsenseProfile.from_dict d1
      [("id", .str d1), ("name", .str DEFAULT_PROFILE_NAME),
       ("settings", .obj [])]).map (fun p => [p])
  | p :: rest => some (p :: rest)

/-- The default user-profile insertion of `_load_from_payload`. -/
def defaultedUserProfileList (d2 : String) : List UserProfile →
    Option (List UserProfile)
  | [] =>
    (UserProfile.from_dict d2
      [("id", .str d2), ("name", .str DEFAULT_PROFILE_NAME),
       ("users", .arr [])]).map (fun p => [p])
  | p :: rest => some (p :: rest)

/-- `ConfigManager._load_from_payload`; `fo`/`fu` supply the per-item fresh
ids, `d1`/`d2` the ids of the default profiles created when a collection comes
out empty.  `none` models an uncaught Python exception on a structurally
ill-typed payload. -/
def ConfigManager.load_from_payload (fo fu : Nat → String) (d1 d2 : String)
    (payload : Jobj) : Option ConfigManager :=
  match jItemsOr (objGet payload "opnsense_profiles") with
  | none => none
  | some oItems =>
    match jItemsOr (objGet payload "user_profiles") with
    | none => none
    | some uItems =>
      match loadOpnsenseList fo 0 oItems with
      | none => none
      | some ops0 =>
        match loadUserProfileList fu 0 uItems with
        | none => none
        | some ups0 =>
          match defaultedOpnsenseList d1 ops0, defaultedUserProfileList d2 ups0 with
          | some (op0 :: oRest), some (up0 :: uRest) =>
            some
              { opnsense_profiles := op0 :: oRest,
                user_profiles := up0 :: uRest,
                selected_opnsense_profile_id :=
                  some (coerceSelection (objGet payload "selected_opnsense_profile_id")
                    ((op0 :: oRest).map (fun p => p.id)) op0.id),
                selected_user_profile_id :=
                  some (coerceSelection (objGet payload "selected_user_profile_id")
                    ((up0 :: uRest).map (fun p => p.id)) up0.id) }
          | _, _ => none

/-- `ConfigManager._migrate_single_profile_payload` (generation A: a flat
object with `settings` and `users`); `f1` is the fresh id used when the
payload has no truthy id, `f2` the generated user-profile id. -/
def ConfigManager.migrate_single_profile_payload (f1 f2 : String) (payload : Jobj) : Jobj :=
  let automation := jTruthyOr (objGet payload "settings") (.obj [])
  let users := jTruthyOr (objGet payload "users") (.arr [])
  let profile_id := jToStr (jTruthyOr (objGet payload "id") (.str f1))
  let name := jTruthyOr (objGet payload "name") (.str DEFAULT_PROFILE_NAME)
  let opnsense_profile : Jobj :=
    [("id", .str profile_id),
     ("name", name),
     ("settings", .obj
       [("connection", .obj DEFAULT_CONNECTION),
        ("automation", if automation.truthy then automation else .obj DEFAULT_AUTOMATION)])]
  let user_profile : Jobj :=
    [("id", .str f2), ("name", name), ("users", users)]
  [("opnsense_profiles", .arr [.obj opnsense_profile]),
   ("user_profiles", .arr [.obj user_profile]),
   ("selected_opnsense_profile_id", .str profile_id),
   ("selected_user_profile_id", .str f2)]

/-! Fixtures: small concrete states used by witnesses and counterexamples. -/

/-- A fully backfilled OPNsense profile used by concrete states. -/
def opFix : OPNsenseProfile := ⟨"o1", "Office", backfillSettings []⟩

/-- A second OPNsense profile. -/
def opFix2 : OPNsenseProfile := ⟨"o2", "Branch", backfillSettings []⟩

/-- A user profile holding one user. -/
def upFix : UserProfile := ⟨"u1", "Team", [⟨"bob", "pw", "Bob", "bob@x", none⟩]⟩

/-- A second user profile. -/
def upFix2 : UserProfile := ⟨"u2", "Crew", []⟩

/-- A manager with one profile of each kind, both selected. -/
def mFix : ConfigManager := ⟨[opFix], [upFix], some "o1", some "u1"⟩

/-- A second manager fixture holding two profiles of each kind. -/
def mFix2 : ConfigManager := ⟨[opFix, opFix2], [upFix, upFix2], some "o1", some "u1"⟩

/-- A user profile with two users, for the update fixtures. -/
def upFix3 : UserProfile :=
  ⟨"u3", "Trio", [⟨"bob", "pw", "Bob", "bob@x", none⟩, ⟨"carl", "pw", "Carl", "c@x", none⟩]⟩

/-- A manager fixture for the update-user claims. -/
def mFix3 : ConfigManager := ⟨[opFix], [upFix3], some "o1", some "u3"⟩

/-- A manager with an OPNsense profile but no user profiles. -/
def mFix4 : ConfigManager := ⟨[opFix], [], some "o1", none⟩

/-- A generation-C payload with a stale OPNsense pointer and a valid user
pointer, for the load witness. -/
def c10payload : Jobj :=
  [("opnsense_profiles", .arr [.obj [("id", .str "o1"), ("name", .str "A")]]),
   ("user_profiles", .arr [.obj [("id", .str "u1"), ("name", .str "B")]]),
   ("selected_opnsense_profile_id", .str "gone"),
   ("selected_user_profile_id", .str "u1")]

/-- The manager produced by loading `c10payload`. -/
def c10m : ConfigManager :=
  ⟨[⟨"o1", "A", backfillSettings []⟩], [⟨"u1", "B", []⟩], some "o1", some "u1"⟩

mutual

/-- Structural coverage of a default table: every default key is present, and
wherever both the stored value and the default value are dicts, the sub-table
is covered recursively (a present non-dict value satisfies the key without
any nested requirement, exactly as `_merge_defaults` leaves it). -/
def coversDefaults : Jobj → Jobj → Bool
  | _, [] => true
  | t, (k, dv) :: rest =>
    (match objGet t k with
     | none => false
     | some tv => coversValue dv tv) && coversDefaults t rest

/-- A present value covers a default value: when both are dicts the sub-dict
must cover the sub-defaults, otherwise any present value counts. -/
def coversValue : JValue → JValue → Bool
  | .obj dvo, .obj tvo => coversDefaults tvo dvo
  | _, _ => true

end

mutual

/-- Keys are pairwise distinct at every nesting level (true of the default
tables; Python dicts cannot carry duplicate keys). -/
def nodupKeysDeep : Jobj → Bool
  | [] => true
  | (k, v) :: rest => !objHasKey rest k && nodupValue v && nodupKeysDeep rest

/-- Deep key-distinctness of a value: only dicts constrain anything. -/
def nodupValue : JValue → Bool
  | .obj o => nodupKeysDeep o
  | _ => true

end

/-- A (possibly nested) key path resolves to a value. -/
def pathHas : Jobj → List String → Bool
  | _, [] => true
  | o, k :: rest =>
    match objGet o k with
    | none => false
    | some (.obj o2) => pathHas o2 rest
    | some _ => rest.isEmpty

/-- A partially-populated payload exercising both backfill branches. -/
def c2payload : Jobj :=
  [("settings", JValue.obj
     [("connection", JValue.obj [("SshUser", JValue.str "admin")]),
      ("automation", JValue.obj [("GroupName", JValue.str "team")])])]

/-- The settings dict carried by `c2payload`. -/
def c2s0 : Jobj :=
  [("connection", JValue.obj [("SshUser", JValue.str "admin")]),
   ("automation", JValue.obj [("GroupName", JValue.str "team")])]

/-- The profile `OPNsenseProfile.from_dict` builds from `c2payload`. -/
def c2prof : OPNsenseProfile := ⟨"f0", DEFAULT_PROFILE_NAME, backfillSettings c2s0⟩

/-- A manager whose OPNsense selection pointer is null. -/
def c1m0 : ConfigManager := ⟨[opFix], [upFix], none, some "u1"⟩

/-- The manager a fresh load of `c1m0.save_data` produces. -/
def c1m1 : ConfigManager := ⟨[opFix], [upFix], some "o1", some "u1"⟩

/-- The `candidate_base` computed by `make_unique_name`: the stripped base, or
the default profile name when the strip leaves nothing. -/
def candidateBase (base : String) : String :=
  if pyStrip base = "" then DEFAULT_PROFILE_NAME else pyStrip base

/-- Decimal value of a digit string under an accumulator (reading `foldl`). -/
def decVal (a : Nat) (l : List Char) : Nat :=
  l.foldl (fun acc c => 10 * acc + (c.toNat - 48)) a

/-! Claim theorems. -/

/-- Claim C6, counterexample: a successful `duplicate_user_profile` call also
raises `user_list_changed`, so its notifications are not exactly
`user_profiles_changed` and `selection_changed` as the claim states. -/
theorem c6_counterexample :
    (mFix.duplicate_user_profile "f9" "u1" none).result.isOk = true ∧
    (mFix.duplicate_user_profile "f9" "u1" none).events ≠
      [Event.user_profiles_changed, Event.selection_changed] ∧
    Event.user_list_changed ∈ (mFix.duplicate_user_profile "f9" "u1" none).events := by
  refine ⟨rfl, ?_, ?_⟩ <;> decide

/-- Claim C6 (amended): every successful `duplicate_user_profile` call raises
exactly `user_profiles_changed`, `selection_changed` and `user_list_changed`,
in that order, and the clone becomes the selected user profile; a successful
`duplicate_opnsense_profile` call raises exactly `opnsense_profiles_changed`
and `selection_changed` and the clone becomes the selected OPNsense profile. -/
theorem c6_duplicate_events :
    (∀ (m : ConfigManager) (fresh pid : String) (nn : Option String)
      (out : OpOutcome UserProfile) (clone : UserProfile),
      m.duplicate_user_profile fresh pid nn = out → out.result = .ok clone →
      out.events = [.user_profiles_changed, .selection_changed, .user_list_changed] ∧
      out.state.selected_user_profile_id = some clone.id) ∧
    (∀ (m : ConfigManager) (fresh pid : String) (nn : Option String)
      (out : OpOutcome OPNsenseProfile) (clone : OPNsenseProfile),
      m.duplicate_opnsense_profile fresh pid nn = out → out.result = .ok clone →
      out.events = [.opnsense_profiles_changed, .selection_changed] ∧
      out.state.selected_opnsense_profile_id = some clone.id) := by
  constructor
  · intro m fresh pid nn out clone hout hok
    subst hout
    unfold ConfigManager.duplicate_user_profile at hok ⊢
    cases hg : m.get_user_profile pid with
    | error e => rw [hg] at hok; simp at hok
    | ok source =>
      rw [hg] at hok
      injection hok with hok
      subst hok
      exact ⟨rfl, rfl⟩
  · intro m fresh pid nn out clone hout hok
    subst hout
    unfold ConfigManager.duplicate_opnsense_profile at hok ⊢
    cases hg : m.get_opnsense_profile pid with
    | error e => rw [hg] at hok; simp at hok
    | ok source =>
      rw [hg] at hok
      injection hok with hok
      subst hok
      exact ⟨rfl, rfl⟩

/-- Claim C6, witness: the amended theorem applied to a concrete state. -/
theorem c6_witness :
    (mFix.duplicate_user_profile "f9" "u1" none).events =
      [.user_profiles_changed, .selection_changed, .user_list_changed] ∧
    (mFix.duplicate_opnsense_profile "f8" "o1" none).events =
      [.opnsense_profiles_changed, .selection_changed] := by
  refine ⟨(c6_duplicate_events.1 mFix "f9" "u1" none _ _ rfl rfl).1, ?_⟩
  exact (c6_duplicate_events.2 mFix "f8" "o1" none _ _ rfl rfl).1

/-- A passing uniqueness check without exclusion means no stored username
matches case-insensitively. -/
theorem ensureUniqueUsername_none (pn un : String) (users : List User) :
    ensureUniqueUsername pn un none users = none →
    ∀ u ∈ users, pyLower u.username ≠ pyLower un := by
  induction users with
  | nil => intro _ u hu; cases hu
  | cons v rest ih =>
    intro h u hu
    unfold ensureUniqueUsername at h
    have hskip : ¬(pyOptTruthy (none : Option String) = true ∧
        pyLower v.username = pyLower ((none : Option String).getD "")) := by
      simp [pyOptTruthy]
    rw [if_neg hskip] at h
    by_cases hveq : pyLower v.username = pyLower un
    · rw [if_pos hveq] at h; cases h
    · rw [if_neg hveq] at h
      rcases List.mem_cons.mp hu with rfl | hu
      · exact hveq
      · exact ih h u hu

/-- Claim C7, counterexample: `add_user` validates the trimmed username but
appends the user with the untrimmed username, so the appended copy does not
carry the trimmed input as the claim states. -/
theorem c7_counterexample :
    (mFix.add_user "u1" ⟨" alice ", "pw", "Al", "a@x", none⟩).result = .ok () ∧
    (mFix.add_user "u1" ⟨" alice ", "pw", "Al", "a@x", none⟩).state.user_profiles =
      [⟨"u1", "Team",
        [⟨"bob", "pw", "Bob", "bob@x", none⟩, ⟨" alice ", "pw", "Al", "a@x", none⟩]⟩] ∧
    " alice " ≠ pyStrip " alice " := by
  refine ⟨rfl, rfl, by decide⟩

/-- Claim C7 (amended): a successful `add_user` call has a non-empty trimmed
username that collides with no stored username case-insensitively, appends to
the addressed profile a copy of the user carrying the username exactly as
passed (untrimmed) with the transient rename marker stripped, leaves
everything else unchanged, and raises exactly `user_list_changed`. -/
theorem c7_add_user (m : ConfigManager) (pid : String) (user : User)
    (out : OpOutcome Unit) (hout : m.add_user pid user = out)
    (hok : out.result = .ok ()) :
    pyStrip user.username ≠ "" ∧
    (∃ prof, findUserProfile m.user_profiles pid = some prof ∧
      ∀ u ∈ prof.users, pyLower u.username ≠ pyLower (pyStrip user.username)) ∧
    out.events = [.user_list_changed] ∧
    out.state.opnsense_profiles = m.opnsense_profiles ∧
    out.state.selected_opnsense_profile_id = m.selected_opnsense_profile_id ∧
    out.state.selected_user_profile_id = m.selected_user_profile_id ∧
    out.state.user_profiles =
      updateFirstUserProfile m.user_profiles pid (fun p =>
        { p with users := p.users ++
            [⟨user.username, user.password, user.full_name, user.email, none⟩] }) := by
  subst hout
  unfold ConfigManager.add_user ConfigManager.get_user_profile at hok ⊢
  cases hf : findUserProfile m.user_profiles pid with
  | none => rw [hf] at hok; simp at hok
  | some profile =>
    rw [hf] at hok
    by_cases hemp : pyStrip user.username = ""
    · simp [hemp] at hok
    · simp only [if_neg hemp] at hok ⊢
      cases hq : ensureUniqueUsername profile.name (pyStrip user.username) none profile.users with
      | some msg => rw [hq] at hok; exact absurd hok (fun h => Except.noConfusion h)
      | none =>
        exact ⟨hemp, ⟨profile, rfl, ensureUniqueUsername_none _ _ _ hq⟩,
          rfl, rfl, rfl, rfl, rfl⟩

/-- Claim C7, witness: the amended theorem applied at a concrete input. -/
theorem c7_witness :
    (mFix.add_user "u1" ⟨"carol", "pw", "Ca", "c@x", none⟩).events =
      [Event.user_list_changed] := by
  exact (c7_add_user mFix "u1" ⟨"carol", "pw", "Ca", "c@x", none⟩ _ rfl rfl).2.2.1

/-- When some non-skipped entry collides case-insensitively, the uniqueness
loop returns the collision message. -/
theorem ensureUniqueName_collision (pre post name : String) (ex : Option String)
    (items : List (String × String))
    (h : ∃ it ∈ items, ¬(pyOptTruthy ex = true ∧ it.1 = ex.getD "") ∧
      pyLower it.2 = pyLower name) :
    ensureUniqueName pre post name ex items = some (pre ++ name ++ post) := by
  induction items with
  | nil => rcases h with ⟨it, hit, _⟩; cases hit
  | cons p rest ih =>
    rcases h with ⟨it, hit, hnskip, hcoll⟩
    unfold ensureUniqueName
    by_cases hskip : pyOptTruthy ex = true ∧ p.1 = ex.getD ""
    · rw [if_pos hskip]
      rcases List.mem_cons.mp hit with rfl | hit
      · exact absurd hskip hnskip
      · exact ih ⟨it, hit, hnskip, hcoll⟩
    · rw [if_neg hskip]
      by_cases heq : pyLower p.2 = pyLower name
      · rw [if_pos heq]
      · rw [if_neg heq]
        rcases List.mem_cons.mp hit with rfl | hit
        · exact absurd hcoll heq
        · exact ih ⟨it, hit, hnskip, hcoll⟩

/-- Claim C3: creating a profile whose cleaned name case-insensitively matches
an existing profile of the same kind, or renaming a profile to a non-empty
trimmed name that case-insensitively matches another profile of the same kind,
fails with the uniqueness error and returns with the entire manager state
unchanged and no notification raised. -/
theorem c3_uniqueness_atomic :
    (∀ (m : ConfigManager) (fresh name : String) (settings : Option Jobj)
      (q : OPNsenseProfile), q ∈ m.opnsense_profiles →
      pyLower q.name = pyLower (if pyStrip name = "" then DEFAULT_PROFILE_NAME else pyStrip name) →
      m.create_opnsense_profile fresh name settings =
        ⟨m, [], .error ("An OPNsense profile named \x27" ++
          (if pyStrip name = "" then DEFAULT_PROFILE_NAME else pyStrip name) ++
          "\x27 already exists.")⟩) ∧
    (∀ (m : ConfigManager) (fresh name : String) (users : Option (List Jobj))
      (q : UserProfile), q ∈ m.user_profiles →
      pyLower q.name = pyLower (if pyStrip name = "" then DEFAULT_PROFILE_NAME else pyStrip name) →
      m.create_user_profile fresh name users =
        ⟨m, [], .error ("A user profile named \x27" ++
          (if pyStrip name = "" then DEFAULT_PROFILE_NAME else pyStrip name) ++
          "\x27 already exists.")⟩) ∧
    (∀ (m : ConfigManager) (pid new_name : String) (prof q : OPNsenseProfile),
      findOpnsense m.opnsense_profiles pid = some prof →
      pyStrip new_name ≠ "" →
      q ∈ m.opnsense_profiles → q.id ≠ pid →
      pyLower q.name = pyLower (pyStrip new_name) →
      m.rename_opnsense_profile pid new_name =
        ⟨m, [], .error ("An OPNsense profile named \x27" ++ pyStrip new_name ++
          "\x27 already exists.")⟩) ∧
    (∀ (m : ConfigManager) (pid new_name : String) (prof q : UserProfile),
      findUserProfile m.user_profiles pid = some prof →
      pyStrip new_name ≠ "" →
      q ∈ m.user_profiles → q.id ≠ pid →
      pyLower q.name = pyLower (pyStrip new_name) →
      m.rename_user_profile pid new_name =
        ⟨m, [], .error ("A user profile named \x27" ++ pyStrip new_name ++
          "\x27 already exists.")⟩) := by
  refine ⟨?_, ?_, ?_, ?_⟩
  · intro m fresh name settings q hq hname
    have he : m.ensure_unique_opnsense_name
        (if pyStrip name = "" then DEFAULT_PROFILE_NAME else pyStrip name) none =
        some ("An OPNsense profile named \x27" ++
          (if pyStrip name = "" then DEFAULT_PROFILE_NAME else pyStrip name) ++
          "\x27 already exists.") := by
      unfold ConfigManager.ensure_unique_opnsense_name
      exact ensureUniqueName_collision _ _ _ _ _
        ⟨(q.id, q.name), List.mem_map_of_mem _ hq, by simp [pyOptTruthy], hname⟩
    simp only [ConfigManager.create_opnsense_profile, he]
  · intro m fresh name users q hq hname
    have he : m.ensure_unique_user_profile_name
        (if pyStrip name = "" then DEFAULT_PROFILE_NAME else pyStrip name) none =
        some ("A user profile named \x27" ++
          (if pyStrip name = "" then DEFAULT_PROFILE_NAME else pyStrip name) ++
          "\x27 already exists.") := by
      unfold ConfigManager.ensure_unique_user_profile_name
      exact ensureUniqueName_collision _ _ _ _ _
        ⟨(q.id, q.name), List.mem_map_of_mem _ hq, by simp [pyOptTruthy], hname⟩
    simp only [ConfigManager.create_user_profile, he]
  · intro m pid new_name prof q hf hne hq hqid hname
    have he : m.ensure_unique_opnsense_name (pyStrip new_name) (some pid) =
        some ("An OPNsense profile named \x27" ++ pyStrip new_name ++
          "\x27 already exists.") := by
      unfold ConfigManager.ensure_unique_opnsense_name
      refine ensureUniqueName_collision _ _ _ _ _
        ⟨(q.id, q.name), List.mem_map_of_mem _ hq, ?_, hname⟩
      intro hc
      exact hqid hc.2
    simp only [ConfigManager.rename_opnsense_profile, ConfigManager.get_opnsense_profile,
      hf, if_neg hne, he]
  · intro m pid new_name prof q hf hne hq hqid hname
    have he : m.ensure_unique_user_profile_name (pyStrip new_name) (some pid) =
        some ("A user profile named \x27" ++ pyStrip new_name ++
          "\x27 already exists.") := by
      unfold ConfigManager.ensure_unique_user_profile_name
      refine ensureUniqueName_collision _ _ _ _ _
        ⟨(q.id, q.name), List.mem_map_of_mem _ hq, ?_, hname⟩
      intro hc
      exact hqid hc.2
    simp only [ConfigManager.rename_user_profile, ConfigManager.get_user_profile,
      hf, if_neg hne, he]

/-- Claim C3, witness: the four parts applied at concrete colliding inputs. -/
theorem c3_witness :
    mFix.create_opnsense_profile "f1" "office" none =
      ⟨mFix, [], .error "An OPNsense profile named \x27office\x27 already exists."⟩ ∧
    mFix.create_user_profile "f2" " team " none =
      ⟨mFix, [], .error "A user profile named \x27team\x27 already exists."⟩ ∧
    mFix2.rename_opnsense_profile "o2" "OFFICE" =
      ⟨mFix2, [], .error "An OPNsense profile named \x27OFFICE\x27 already exists."⟩ ∧
    mFix2.rename_user_profile "u2" "TEAM" =
      ⟨mFix2, [], .error "A user profile named \x27TEAM\x27 already exists."⟩ := by
  refine ⟨?_, ?_, ?_, ?_⟩
  · exact c3_uniqueness_atomic.1 mFix "f1" "office" none opFix (by simp [mFix]) (by decide)
  · exact c3_uniqueness_atomic.2.1 mFix "f2" " team " none upFix (by simp [mFix]) (by decide)
  · exact c3_uniqueness_atomic.2.2.1 mFix2 "o2" "OFFICE" opFix2 opFix rfl
      (by decide) (by simp [mFix2]) (by decide) (by decide)
  · exact c3_uniqueness_atomic.2.2.2 mFix2 "u2" "TEAM" upFix2 upFix rfl
      (by decide) (by simp [mFix2]) (by decide) (by decide)

/-- When some non-skipped user collides case-insensitively, the username
uniqueness loop returns the collision message. -/
theorem ensureUniqueUsername_collision (pn un : String) (ex : Option String)
    (users : List User)
    (h : ∃ u ∈ users, ¬(pyOptTruthy ex = true ∧ pyLower u.username = pyLower (ex.getD "")) ∧
      pyLower u.username = pyLower un) :
    ensureUniqueUsername pn un ex users =
      some ("User \x27" ++ un ++ "\x27 already exists in profile \x27" ++ pn ++ "\x27.") := by
  induction users with
  | nil => rcases h with ⟨u, hu, _⟩; cases hu
  | cons v rest ih =>
    rcases h with ⟨u, hu, hnskip, hcoll⟩
    unfold ensureUniqueUsername
    by_cases hskip : pyOptTruthy ex = true ∧ pyLower v.username = pyLower (ex.getD "")
    · rw [if_pos hskip]
      rcases List.mem_cons.mp hu with rfl | hu
      · exact absurd hskip hnskip
      · exact ih ⟨u, hu, hnskip, hcoll⟩
    · rw [if_neg hskip]
      by_cases heq : pyLower v.username = pyLower un
      · rw [if_pos heq]
      · rw [if_neg heq]
        rcases List.mem_cons.mp hu with rfl | hu
        · exact absurd hcoll heq
        · exact ih ⟨u, hu, hnskip, hcoll⟩

/-- Claim C8: `update_user` with a changed username colliding with a third
user (case-insensitively distinct from the resolved original, so not skipped
by the exclusion) fails with the collision error and leaves the whole state
unchanged, and a successful call replaces exactly the first matched entry in
place (position preserved, rename marker stripped) and raises
`user_list_changed`. -/
theorem c8_update_user :
    (∀ (m : ConfigManager) (pid : String) (user : User) (profile : UserProfile)
      (third : User),
      findUserProfile m.user_profiles pid = some profile →
      pyStrip (strOr user.original_username user.username) ≠ "" →
      pyStrip user.username ≠ "" →
      (findUserIdx (pyStrip (strOr user.original_username user.username)) profile.users).isSome →
      pyLower (pyStrip user.username) ≠
        pyLower (pyStrip (strOr user.original_username user.username)) →
      third ∈ profile.users →
      pyLower third.username ≠ pyLower (pyStrip (strOr user.original_username user.username)) →
      pyLower third.username = pyLower (pyStrip user.username) →
      m.update_user pid user =
        ⟨m, [], .error ("User \x27" ++ pyStrip user.username ++
          "\x27 already exists in profile \x27" ++ profile.name ++ "\x27.")⟩) ∧
    (∀ (m : ConfigManager) (pid : String) (user : User) (profile : UserProfile)
      (idx : Nat),
      findUserProfile m.user_profiles pid = some profile →
      pyStrip (strOr user.original_username user.username) ≠ "" →
      pyStrip user.username ≠ "" →
      findUserIdx (pyStrip (strOr user.original_username user.username)) profile.users = some idx →
      (if pyLower (pyStrip user.username) =
          pyLower (pyStrip (strOr user.original_username user.username)) then none
       else ensureUniqueUsername profile.name (pyStrip user.username)
          (some (pyStrip (strOr user.original_username user.username))) profile.users) = none →
      m.update_user pid user =
        ⟨{ m with user_profiles :=
            updateFirstUserProfile m.user_profiles pid (fun p =>
              { p with users := p.users.set idx ⟨user.username, user.password, user.full_name, user.email, none⟩ }) },
         [.user_list_changed], .ok ()⟩) := by
  constructor
  · intro m pid user profile third hf horig hnew hidx hdiff hmem hnotorig hcoll
    have he : ensureUniqueUsername profile.name (pyStrip user.username)
        (some (pyStrip (strOr user.original_username user.username))) profile.users =
        some ("User \x27" ++ pyStrip user.username ++
          "\x27 already exists in profile \x27" ++ profile.name ++ "\x27.") := by
      refine ensureUniqueUsername_collision _ _ _ _ ⟨third, hmem, ?_, hcoll⟩
      intro hc
      exact hnotorig hc.2
    rcases Option.isSome_iff_exists.mp hidx with ⟨idx, hidx⟩
    simp only [ConfigManager.update_user, ConfigManager.get_user_profile, hf,
      if_neg horig, if_neg hnew, hidx, if_neg hdiff, he]
  · intro m pid user profile idx hf horig hnew hidx huniq
    simp only [ConfigManager.update_user, ConfigManager.get_user_profile, hf,
      if_neg horig, if_neg hnew, hidx, huniq]
    rfl

/-- Claim C8, witness: a colliding rename fails with the state unchanged, and
a non-colliding rename replaces the entry in place. -/
theorem c8_witness :
    mFix3.update_user "u3" ⟨"CARL", "p", "f", "e", some "bob"⟩ =
      ⟨mFix3, [], .error "User \x27CARL\x27 already exists in profile \x27Trio\x27."⟩ ∧
    mFix3.update_user "u3" ⟨"bobby", "p", "f", "e", some "bob"⟩ =
      ⟨{ mFix3 with user_profiles :=
          [⟨"u3", "Trio", [⟨"bobby", "p", "f", "e", none⟩, ⟨"carl", "pw", "Carl", "c@x", none⟩]⟩] },
       [.user_list_changed], .ok ()⟩ := by
  constructor
  · exact c8_update_user.1 mFix3 "u3" ⟨"CARL", "p", "f", "e", some "bob"⟩ upFix3
      ⟨"carl", "pw", "Carl", "c@x", none⟩ rfl (by decide) (by decide) (by decide)
      (by decide) (by decide) (by decide) (by decide)
  · exact c8_update_user.2 mFix3 "u3" ⟨"bobby", "p", "f", "e", some "bob"⟩ upFix3 0
      rfl (by decide) (by decide) (by decide) (by decide)

/-- With no explicit id, resolving an OPNsense profile succeeds whenever the
collection is non-empty (selection, stale or not, falls back to the first). -/
theorem resolve_opnsense_none_ok (m : ConfigManager) (h : m.opnsense_profiles ≠ []) :
    ∃ t, m.resolve_opnsense_profile none = .ok t := by
  unfold ConfigManager.resolve_opnsense_profile
  rw [if_neg (by simp [pyOptTruthy] : ¬ pyOptTruthy (none : Option String) = true)]
  cases hs : m.get_selected_opnsense_profile with
  | some p => exact ⟨p, rfl⟩
  | none =>
    cases hp : m.opnsense_profiles with
    | nil => exact absurd hp h
    | cons p ps => exact ⟨p, rfl⟩

/-- The legacy profiles list is produced whenever every stored connection
value is a dict or absent. -/
theorem legacyProfilesPayload_some (ps : List OPNsenseProfile)
    (h : ∀ q ∈ ps, (connectionObj q).isSome) :
    ∃ lps, legacyProfilesPayload ps = some lps := by
  induction ps with
  | nil => exact ⟨[], rfl⟩
  | cons p rest ih =>
    obtain ⟨c, hc⟩ := Option.isSome_iff_exists.mp (h p (List.mem_cons_self p rest))
    obtain ⟨lps, hlps⟩ := ih (fun q hq => h q (List.mem_cons_of_mem _ hq))
    exact ⟨.obj (c.foldl (fun acc kv => objSet acc kv.1 kv.2)
        [("ProfileName", .str p.name)]) :: lps,
      by simp only [legacyProfilesPayload, hc, hlps]⟩

/-- Claim C4: `export_legacy_files` fails when no OPNsense profiles exist;
with OPNsense profiles but no user profiles (default opnsense target, any
user-profile id and username argument) it succeeds and the users file is
`{"users": []}`; and a truthy username filter matching no user of the
resolved target user profile fails with the not-found error. -/
theorem c4_export_legacy_files :
    (∀ (m : ConfigManager) (oid uid uname : Option String),
      m.opnsense_profiles = [] →
      m.export_legacy_files oid uid uname =
        some (.error "No OPNsense profiles are available to export.")) ∧
    (∀ (m : ConfigManager) (uid uname : Option String),
      m.opnsense_profiles ≠ [] → m.user_profiles = [] →
      (∀ q ∈ m.opnsense_profiles, (connectionObj q).isSome) →
      ∃ pf sf, m.export_legacy_files none uid uname =
        some (.ok ⟨pf, sf, [("users", .arr [])]⟩)) ∧
    (∀ (m : ConfigManager) (uid : Option String) (s : String) (tup : UserProfile),
      m.opnsense_profiles ≠ [] → m.user_profiles ≠ [] →
      (∀ q ∈ m.opnsense_profiles, (connectionObj q).isSome) →
      m.resolve_user_profile uid = .ok tup →
      s ≠ "" →
      (∀ u ∈ tup.users, pyLower u.username ≠ pyLower s) →
      m.export_legacy_files none uid (some s) =
        some (.error ("User \x27" ++ s ++ "\x27 was not found in profile \x27" ++
          tup.name ++ "\x27."))) := by
  refine ⟨?_, ?_, ?_⟩
  · intro m oid uid uname h
    simp only [ConfigManager.export_legacy_files, h]
  · intro m uid uname hnil hu hconn
    obtain ⟨t, ht⟩ := resolve_opnsense_none_ok m hnil
    obtain ⟨lps, hlps⟩ := legacyProfilesPayload_some m.opnsense_profiles hconn
    cases hp : m.opnsense_profiles with
    | nil => exact absurd hp hnil
    | cons p ps =>
      rw [hp] at hlps
      refine ⟨[("profiles", .arr lps)], objGetD t.settings "automation" (.obj []), ?_⟩
      simp only [ConfigManager.export_legacy_files, hp, ht, hu, hlps, List.map_nil]
  · intro m uid s tup hnil hupne hconn hres hs hnomatch
    obtain ⟨t, ht⟩ := resolve_opnsense_none_ok m hnil
    obtain ⟨lps, hlps⟩ := legacyProfilesPayload_some m.opnsense_profiles hconn
    have hfind : tup.users.find?
        (fun u => pyLower u.username = pyLower ((some s : Option String).getD "")) = none := by
      apply List.find?_eq_none.mpr
      intro x hx
      simpa using hnomatch x hx
    have htr : pyOptTruthy (some s) = true := by simp [pyOptTruthy, hs]
    cases hp : m.opnsense_profiles with
    | nil => exact absurd hp hnil
    | cons p ps =>
      rw [hp] at hlps
      cases hup : m.user_profiles with
      | nil => exact absurd hup hupne
      | cons q qs =>
        simp only [ConfigManager.export_legacy_files, hp, ht, hup, hres, hlps, htr,
          if_true, hfind]
        rfl

/-- Claim C4, witness: the three parts at concrete states. -/
theorem c4_witness :
    (⟨[], [], none, none⟩ : ConfigManager).export_legacy_files none none none =
      some (.error "No OPNsense profiles are available to export.") ∧
    (∃ pf sf, mFix4.export_legacy_files none none (some "zed") =
      some (.ok ⟨pf, sf, [("users", .arr [])]⟩)) ∧
    mFix.export_legacy_files none none (some "zed") =
      some (.error "User \x27zed\x27 was not found in profile \x27Team\x27.") := by
  refine ⟨?_, ?_, ?_⟩
  · exact c4_export_legacy_files.1 _ none none none rfl
  · exact c4_export_legacy_files.2.1 mFix4 none (some "zed") (List.cons_ne_nil _ _) rfl
      (by intro q hq; rw [List.mem_singleton.mp hq]; rfl)
  · exact c4_export_legacy_files.2.2 mFix none "zed" upFix (List.cons_ne_nil _ _)
      (List.cons_ne_nil _ _)
      (by intro q hq; rw [List.mem_singleton.mp hq]; rfl) rfl (by decide) (by decide)

/-- A truthy-string `or` reduces to the string itself. -/
theorem jTruthyOr_str {s : String} {d : JValue} (h : s ≠ "") :
    jTruthyOr (some (.str s)) d = .str s := by
  simp [jTruthyOr, JValue.truthy, h]

/-- A list value `or []` reduces to the list value itself. -/
theorem jTruthyOr_arr (xs : List JValue) :
    jTruthyOr (some (.arr xs)) (.arr []) = .arr xs := by
  cases xs <;> rfl

/-- Specialisation of `jTruthyOr_arr` to a mapped list of dicts. -/
theorem jTruthyOr_arr_map (items : List Jobj) :
    jTruthyOr (some (.arr (items.map JValue.obj))) (.arr []) =
      .arr (items.map JValue.obj) := by
  cases items <;> rfl

/-- The `automation or defaults` value of the generation-A migration, pushed
through the preceding `settings or {}`. -/
theorem migrate_automation_eq (v : JValue) :
    (if (jTruthyOr (some v) (.obj [])).truthy = true then jTruthyOr (some v) (.obj [])
     else .obj DEFAULT_AUTOMATION) =
      (if v.truthy = true then v else .obj DEFAULT_AUTOMATION) := by
  by_cases hv : v.truthy = true
  · simp only [jTruthyOr, if_pos hv]
  · simp only [jTruthyOr, if_neg hv]
    rfl

/-- Deserialising a list of dict payloads produces the mapped users. -/
theorem usersFromPayload_map (items : List Jobj) :
    usersFromPayload (items.map JValue.obj) = some (items.map User.from_dict) := by
  induction items with
  | nil => rfl
  | cons x rest ih => simp [usersFromPayload, ih]

/-- Claim C5, counterexample: migrating the generation-A payload
`{"id": "x", "name": "N", "settings": {}, "users": []}` and loading the
result gives the user profile the freshly generated id (here `"f2"`), not the
legacy id `"x"`, so the user profile does not carry the legacy object id. -/
theorem c5_counterexample :
    ConfigManager.load_from_payload (fun _ => "g") (fun _ => "h") "d1" "d2"
      (ConfigManager.migrate_single_profile_payload "f1" "f2"
        [("id", .str "x"), ("name", .str "N"), ("settings", .obj []), ("users", .arr [])]) =
      some ⟨[⟨"x", "N", backfillSettings
          [("connection", .obj DEFAULT_CONNECTION), ("automation", .obj DEFAULT_AUTOMATION)]⟩],
        [⟨"f2", "N", []⟩], some "x", some "f2"⟩ ∧
    "f2" ≠ "x" := ⟨rfl, by decide⟩

/-- Claim C5 (amended): loading a migrated generation-A flat payload with a
truthy id and name produces exactly one OPNsense profile and exactly one user
profile, both named by the legacy name, with the OPNsense profile retaining
the legacy id, the user profile carrying the freshly generated id (never the
legacy id), and both migrated profiles selected. -/
theorem c5_migrate_single (idStr nameStr : String) (settingsV : JValue)
    (usersItems : List Jobj) (f1 f2 d1 d2 : String) (fo fu : Nat → String)
    (hid : idStr ≠ "") (hnm : nameStr ≠ "") (hf2 : f2 ≠ "") :
    ConfigManager.load_from_payload fo fu d1 d2
      (ConfigManager.migrate_single_profile_payload f1 f2
        [("id", .str idStr), ("name", .str nameStr), ("settings", settingsV),
         ("users", .arr (usersItems.map JValue.obj))]) =
      some ⟨[⟨idStr, nameStr, backfillSettings
          [("connection", .obj DEFAULT_CONNECTION),
           ("automation", if settingsV.truthy = true then settingsV else .obj DEFAULT_AUTOMATION)]⟩],
        [⟨f2, nameStr, usersItems.map User.from_dict⟩],
        some idStr, some f2⟩ := by
  have hmp : ConfigManager.migrate_single_profile_payload f1 f2
      [("id", .str idStr), ("name", .str nameStr), ("settings", settingsV),
       ("users", .arr (usersItems.map JValue.obj))] =
      [("opnsense_profiles", .arr [.obj
          [("id", .str idStr), ("name", .str nameStr), ("settings", .obj
            [("connection", .obj DEFAULT_CONNECTION),
             ("automation",
               if settingsV.truthy = true then settingsV else .obj DEFAULT_AUTOMATION)])]]),
       ("user_profiles", .arr [.obj
          [("id", .str f2), ("name", .str nameStr),
           ("users", .arr (usersItems.map JValue.obj))]]),
       ("selected_opnsense_profile_id", .str idStr),
       ("selected_user_profile_id", .str f2)] := by
    simp [ConfigManager.migrate_single_profile_payload, objGet, jTruthyOr_str hid,
      jTruthyOr_str hnm, jTruthyOr_arr_map, migrate_automation_eq, jToStr]
  rw [hmp]
  have hop : OPNsenseProfile.from_dict (fo 0)
      [("id", .str idStr), ("name", .str nameStr), ("settings", .obj
        [("connection", .obj DEFAULT_CONNECTION),
         ("automation",
           if settingsV.truthy = true then settingsV else .obj DEFAULT_AUTOMATION)])] =
      some ⟨idStr, nameStr, backfillSettings
        [("connection", .obj DEFAULT_CONNECTION),
         ("automation",
           if settingsV.truthy = true then settingsV else .obj DEFAULT_AUTOMATION)]⟩ := by
    simp [OPNsenseProfile.from_dict, objGet, jTruthyOr_str hid, jTruthyOr_str hnm,
      jToStr, jTruthyOr, JValue.truthy, hid, hnm]
  have hup : UserProfile.from_dict (fu 0)
      [("id", .str f2), ("name", .str nameStr),
       ("users", .arr (usersItems.map JValue.obj))] =
      some ⟨f2, nameStr, usersItems.map User.from_dict⟩ := by
    simp [UserProfile.from_dict, objGet, jTruthyOr_str hf2, jTruthyOr_str hnm,
      jTruthyOr_arr_map, jToStr, usersFromPayload_map]
  simp [ConfigManager.load_from_payload, objGet, jItemsOr, jTruthyOr_arr,
    loadOpnsenseList, loadUserProfileList, defaultedOpnsenseList,
    defaultedUserProfileList, hop, hup, coerceSelection, hid, hf2]

/-- Claim C5, witness: the amended theorem at the spec example input. -/
theorem c5_witness :
    ConfigManager.load_from_payload (fun _ => "g") (fun _ => "h") "d1" "d2"
      (ConfigManager.migrate_single_profile_payload "f1" "f7"
        [("id", .str "x"), ("name", .str "N"), ("settings", .obj []),
         ("users", .arr ([[("username", JValue.str "bob")]].map JValue.obj))]) =
      some ⟨[⟨"x", "N", backfillSettings
          [("connection", .obj DEFAULT_CONNECTION),
           ("automation", if (JValue.obj []).truthy = true then .obj [] else .obj DEFAULT_AUTOMATION)]⟩],
        [⟨"f7", "N", [[("username", JValue.str "bob")]].map User.from_dict⟩],
        some "x", some "f7"⟩ := by
  exact c5_migrate_single "x" "N" (.obj []) [[("username", JValue.str "bob")]]
    "f1" "f7" "d1" "d2" (fun _ => "g") (fun _ => "h")
    (by decide) (by decide) (by decide)

/-- An object value `or []` reduces to the object itself. -/
theorem jTruthyOr_obj (o : Jobj) : jTruthyOr (some (.obj o)) (.obj []) = .obj o := by
  cases o <;> rfl

/-- A stored list survives the `or []` iteration guard. -/
theorem jItemsOr_arr (xs : List JValue) : jItemsOr (some (.arr xs)) = some xs := by
  cases xs <;> rfl

/-- The default OPNsense profile built by `_load_from_payload` when the
collection is empty. -/
theorem default_opnsense_from_dict (d : String) :
    OPNsenseProfile.from_dict d
      [("id", .str d), ("name", .str DEFAULT_PROFILE_NAME), ("settings", .obj [])] =
      some ⟨d, DEFAULT_PROFILE_NAME, backfillSettings []⟩ := by
  simp [OPNsenseProfile.from_dict, objGet, jTruthyOr, jToStr, JValue.truthy,
    DEFAULT_PROFILE_NAME]

/-- The default user profile built by `_load_from_payload`. -/
theorem default_user_from_dict (d : String) :
    UserProfile.from_dict d
      [("id", .str d), ("name", .str DEFAULT_PROFILE_NAME), ("users", .arr [])] =
      some ⟨d, DEFAULT_PROFILE_NAME, []⟩ := by
  simp [UserProfile.from_dict, objGet, jTruthyOr, jToStr, JValue.truthy,
    DEFAULT_PROFILE_NAME, usersFromPayload]

/-- The coerced selection pointer always lands on a valid id. -/
theorem coerceSelection_mem (saved : Option JValue) (ids : List String) (fid : String)
    (hfid : fid ∈ ids) : coerceSelection saved ids fid ∈ ids := by
  cases saved with
  | none => exact hfid
  | some v =>
    cases v with
    | str s =>
      show (if s ≠ "" ∧ s ∈ ids then s else fid) ∈ ids
      by_cases h : s ≠ "" ∧ s ∈ ids
      · rw [if_pos h]; exact h.2
      · rw [if_neg h]; exact hfid
    | null => exact hfid
    | bool b => exact hfid
    | num n => exact hfid
    | arr xs => exact hfid
    | obj o => exact hfid

/-- A truthy saved pointer naming a live profile is kept. -/
theorem coerceSelection_keep {s : String} {ids : List String} (fid : String)
    (h1 : s ≠ "") (h2 : s ∈ ids) :
    coerceSelection (some (.str s)) ids fid = s := by
  show (if s ≠ "" ∧ s ∈ ids then s else fid) = s
  rw [if_pos ⟨h1, h2⟩]

/-- A missing, falsy, non-string or stale saved pointer is coerced to the
first id. -/
theorem coerceSelection_coerce (saved : Option JValue) (ids : List String)
    (fid : String) (h : ∀ s, saved = some (.str s) → s = "" ∨ s ∉ ids) :
    coerceSelection saved ids fid = fid := by
  cases saved with
  | none => rfl
  | some v =>
    cases v with
    | str s =>
      show (if s ≠ "" ∧ s ∈ ids then s else fid) = fid
      rcases h s rfl with h0 | h0
      · rw [if_neg]; rintro ⟨hs, _⟩; exact hs h0
      · rw [if_neg]; rintro ⟨_, hmem⟩; exact h0 hmem
    | null => rfl
    | bool b => rfl
    | num n => rfl
    | arr xs => rfl
    | obj o => rfl

/-- Deserialising a serialised user reproduces it when the transient rename
marker is unset. -/
theorem user_from_to (u : User) (h : u.original_username = none) :
    User.from_dict u.to_dict = u := by
  obtain ⟨a, b, c, d, e⟩ := u
  cases h
  rfl

/-- Deserialising a serialised OPNsense profile reproduces it when the id and
name are non-empty and the settings are already backfilled. -/
theorem opnsense_from_to (fresh : String) (p : OPNsenseProfile) (hid : p.id ≠ "")
    (hnm : p.name ≠ "") (hs : backfillSettings p.settings = p.settings) :
    OPNsenseProfile.from_dict fresh p.to_dict = some p := by
  have step : OPNsenseProfile.from_dict fresh p.to_dict =
      some ⟨p.id, p.name, backfillSettings p.settings⟩ := by
    simp [OPNsenseProfile.from_dict, OPNsenseProfile.to_dict, objGet,
      jTruthyOr_str hid, jTruthyOr_str hnm, jToStr, jTruthyOr_obj]
  rw [step, hs]

/-- Deserialising a serialised user profile reproduces it when the id and
name are non-empty and no user carries the transient rename marker. -/
theorem userProfile_from_to (fresh : String) (p : UserProfile) (hid : p.id ≠ "")
    (hnm : p.name ≠ "") (hu : ∀ u ∈ p.users, u.original_username = none) :
    UserProfile.from_dict fresh p.to_dict = some p := by
  have husers : usersFromPayload (p.users.map (fun u => .obj u.to_dict)) =
      some p.users := by
    have hmm : (p.users.map (fun u => JValue.obj u.to_dict)) =
        (p.users.map User.to_dict).map JValue.obj := by rw [List.map_map]; rfl
    rw [hmm, usersFromPayload_map, List.map_map]
    have h1 : p.users.map (User.from_dict ∘ User.to_dict) = p.users.map id :=
      List.map_congr_left (fun u hmem => user_from_to u (hu u hmem))
    rw [h1, List.map_id]
  have step : UserProfile.from_dict fresh p.to_dict =
      some ⟨p.id, p.name, p.users⟩ := by
    simp [UserProfile.from_dict, UserProfile.to_dict, objGet,
      jTruthyOr_str hid, jTruthyOr_str hnm, jToStr, jTruthyOr_arr, husers]
  rw [step]

/-- Loading the serialised form of a list of well-formed OPNsense profiles
reproduces the list, whatever fresh ids are on offer. -/
theorem loadOpnsenseList_map (fo : Nat → String) (ps : List OPNsenseProfile)
    (h : ∀ p ∈ ps, p.id ≠ "" ∧ p.name ≠ "" ∧ backfillSettings p.settings = p.settings) :
    ∀ i, loadOpnsenseList fo i (ps.map (fun p => .obj p.to_dict)) = some ps := by
  induction ps with
  | nil => intro i; rfl
  | cons p rest ih =>
    intro i
    obtain ⟨h1, h2, h3⟩ := h p (List.mem_cons_self p rest)
    simp only [List.map_cons, loadOpnsenseList, opnsense_from_to (fo i) p h1 h2 h3,
      ih (fun q hq => h q (List.mem_cons_of_mem _ hq)) (i + 1)]

/-- Loading the serialised form of a list of well-formed user profiles
reproduces the list. -/
theorem loadUserProfileList_map (fu : Nat → String) (ps : List UserProfile)
    (h : ∀ p ∈ ps, p.id ≠ "" ∧ p.name ≠ "" ∧ ∀ u ∈ p.users, u.original_username = none) :
    ∀ i, loadUserProfileList fu i (ps.map (fun p => .obj p.to_dict)) = some ps := by
  induction ps with
  | nil => intro i; rfl
  | cons p rest ih =>
    intro i
    obtain ⟨h1, h2, h3⟩ := h p (List.mem_cons_self p rest)
    simp only [List.map_cons, loadUserProfileList, userProfile_from_to (fu i) p h1 h2 h3,
      ih (fun q hq => h q (List.mem_cons_of_mem _ hq)) (i + 1)]

/-- The invariants of the manager record `_load_from_payload` builds from any
non-empty pair of loaded collections. -/
theorem load_record_invariants (payload : Jobj) (op0 : OPNsenseProfile)
    (oRest : List OPNsenseProfile) (up0 : UserProfile) (uRest : List UserProfile) :
    let m : ConfigManager :=
      { opnsense_profiles := op0 :: oRest,
        user_profiles := up0 :: uRest,
        selected_opnsense_profile_id :=
          some (coerceSelection (objGet payload "selected_opnsense_profile_id")
            ((op0 :: oRest).map (fun p => p.id)) op0.id),
        selected_user_profile_id :=
          some (coerceSelection (objGet payload "selected_user_profile_id")
            ((up0 :: uRest).map (fun p => p.id)) up0.id) }
    m.opnsense_profiles ≠ [] ∧ m.user_profiles ≠ [] ∧
    (∃ s, m.selected_opnsense_profile_id = some s ∧
      s ∈ m.opnsense_profiles.map (fun p => p.id)) ∧
    (∃ s, m.selected_user_profile_id = some s ∧
      s ∈ m.user_profiles.map (fun p => p.id)) ∧
    ((∀ s, objGet payload "selected_opnsense_profile_id" = some (.str s) →
        s = "" ∨ s ∉ m.opnsense_profiles.map (fun p => p.id)) →
      ∃ p0 rest, m.opnsense_profiles = p0 :: rest ∧
        m.selected_opnsense_profile_id = some p0.id) ∧
    ((∀ s, objGet payload "selected_user_profile_id" = some (.str s) →
        s = "" ∨ s ∉ m.user_profiles.map (fun p => p.id)) →
      ∃ p0 rest, m.user_profiles = p0 :: rest ∧
        m.selected_user_profile_id = some p0.id) ∧
    (∀ s, objGet payload "selected_opnsense_profile_id" = some (.str s) → s ≠ "" →
      s ∈ m.opnsense_profiles.map (fun p => p.id) →
      m.selected_opnsense_profile_id = some s) ∧
    (∀ s, objGet payload "selected_user_profile_id" = some (.str s) → s ≠ "" →
      s ∈ m.user_profiles.map (fun p => p.id) →
      m.selected_user_profile_id = some s) := by
  intro m
  have hofid : op0.id ∈ (op0 :: oRest).map (fun p => p.id) :=
    List.mem_cons_self op0.id _
  have hufid : up0.id ∈ (up0 :: uRest).map (fun p => p.id) :=
    List.mem_cons_self up0.id _
  refine ⟨List.cons_ne_nil _ _, List.cons_ne_nil _ _, ?_, ?_, ?_, ?_, ?_, ?_⟩
  · exact ⟨_, rfl, coerceSelection_mem _ _ _ hofid⟩
  · exact ⟨_, rfl, coerceSelection_mem _ _ _ hufid⟩
  · intro hstale
    refine ⟨op0, oRest, rfl, ?_⟩
    show some (coerceSelection (objGet payload "selected_opnsense_profile_id")
      ((op0 :: oRest).map (fun p => p.id)) op0.id) = some op0.id
    rw [coerceSelection_coerce (objGet payload "selected_opnsense_profile_id")
      ((op0 :: oRest).map (fun p => p.id)) op0.id (fun s hs => hstale s hs)]
  · intro hstale
    refine ⟨up0, uRest, rfl, ?_⟩
    show some (coerceSelection (objGet payload "selected_user_profile_id")
      ((up0 :: uRest).map (fun p => p.id)) up0.id) = some up0.id
    rw [coerceSelection_coerce (objGet payload "selected_user_profile_id")
      ((up0 :: uRest).map (fun p => p.id)) up0.id (fun s hs => hstale s hs)]
  · intro s hs hne hmem
    rw [show m.selected_opnsense_profile_id =
      some (coerceSelection (objGet payload "selected_opnsense_profile_id")
        ((op0 :: oRest).map (fun p => p.id)) op0.id) from rfl, hs,
      coerceSelection_keep _ hne hmem]
  · intro s hs hne hmem
    rw [show m.selected_user_profile_id =
      some (coerceSelection (objGet payload "selected_user_profile_id")
        ((up0 :: uRest).map (fun p => p.id)) up0.id) from rfl, hs,
      coerceSelection_keep _ hne hmem]

/-- Defaulting an OPNsense collection always yields a non-empty list. -/
theorem defaultedOpnsenseList_some (d : String) (ops0 : List OPNsenseProfile) :
    ∃ xs, defaultedOpnsenseList d ops0 = some xs ∧ xs ≠ [] := by
  cases ops0 with
  | nil =>
    refine ⟨[⟨d, DEFAULT_PROFILE_NAME, backfillSettings []⟩], ?_, List.cons_ne_nil _ _⟩
    simp [defaultedOpnsenseList, default_opnsense_from_dict]
  | cons p rest => exact ⟨p :: rest, rfl, List.cons_ne_nil _ _⟩

/-- Defaulting a user-profile collection always yields a non-empty list. -/
theorem defaultedUserProfileList_some (d : String) (ups0 : List UserProfile) :
    ∃ xs, defaultedUserProfileList d ups0 = some xs ∧ xs ≠ [] := by
  cases ups0 with
  | nil =>
    refine ⟨[⟨d, DEFAULT_PROFILE_NAME, []⟩], ?_, List.cons_ne_nil _ _⟩
    simp [defaultedUserProfileList, default_user_from_dict]
  | cons p rest => exact ⟨p :: rest, rfl, List.cons_ne_nil _ _⟩

/-- Claim C10: whenever `_load_from_payload` completes on a payload, the
resulting manager holds at least one profile of each kind, both selection
pointers are non-null and name a profile present in their collection, a
missing, falsy, non-string or stale saved pointer is coerced to the first
profile of its kind, and a truthy saved pointer naming a live profile is
kept. -/
theorem c10_load_invariants (fo fu : Nat → String) (d1 d2 : String) (payload : Jobj)
    (m : ConfigManager)
    (h : ConfigManager.load_from_payload fo fu d1 d2 payload = some m) :
    m.opnsense_profiles ≠ [] ∧ m.user_profiles ≠ [] ∧
    (∃ s, m.selected_opnsense_profile_id = some s ∧
      s ∈ m.opnsense_profiles.map (fun p => p.id)) ∧
    (∃ s, m.selected_user_profile_id = some s ∧
      s ∈ m.user_profiles.map (fun p => p.id)) ∧
    ((∀ s, objGet payload "selected_opnsense_profile_id" = some (.str s) →
        s = "" ∨ s ∉ m.opnsense_profiles.map (fun p => p.id)) →
      ∃ p0 rest, m.opnsense_profiles = p0 :: rest ∧
        m.selected_opnsense_profile_id = some p0.id) ∧
    ((∀ s, objGet payload "selected_user_profile_id" = some (.str s) →
        s = "" ∨ s ∉ m.user_profiles.map (fun p => p.id)) →
      ∃ p0 rest, m.user_profiles = p0 :: rest ∧
        m.selected_user_profile_id = some p0.id) ∧
    (∀ s, objGet payload "selected_opnsense_profile_id" = some (.str s) → s ≠ "" →
      s ∈ m.opnsense_profiles.map (fun p => p.id) →
      m.selected_opnsense_profile_id = some s) ∧
    (∀ s, objGet payload "selected_user_profile_id" = some (.str s) → s ≠ "" →
      s ∈ m.user_profiles.map (fun p => p.id) →
      m.selected_user_profile_id = some s) := by
  unfold ConfigManager.load_from_payload at h
  cases h1 : jItemsOr (objGet payload "opnsense_profiles") with
  | none => simp only [h1] at h; exact Option.noConfusion h
  | some oItems =>
    cases h2 : jItemsOr (objGet payload "user_profiles") with
    | none => simp only [h1, h2] at h; exact Option.noConfusion h
    | some uItems =>
      cases h3 : loadOpnsenseList fo 0 oItems with
      | none => simp only [h1, h2, h3] at h; exact Option.noConfusion h
      | some ops0 =>
        cases h4 : loadUserProfileList fu 0 uItems with
        | none => simp only [h1, h2, h3, h4] at h; exact Option.noConfusion h
        | some ups0 =>
          obtain ⟨ops, h5, hone⟩ := defaultedOpnsenseList_some d1 ops0
          obtain ⟨ups, h6, hune⟩ := defaultedUserProfileList_some d2 ups0
          cases ops with
          | nil => exact absurd rfl hone
          | cons op0 oRest =>
            cases ups with
            | nil => exact absurd rfl hune
            | cons up0 uRest =>
              simp only [h1, h2, h3, h4, h5, h6, Option.some.injEq] at h
              subst h
              exact load_record_invariants payload op0 oRest up0 uRest

/-- Claim C10, witness: loading a payload with a stale OPNsense pointer and a
valid user pointer establishes the invariants (the stale pointer is coerced
to the first profile, the valid one is kept). -/
theorem c10_witness :
    ConfigManager.load_from_payload (fun _ => "g") (fun _ => "h") "d1" "d2" c10payload =
      some c10m ∧
    c10m.opnsense_profiles ≠ [] ∧ c10m.user_profiles ≠ [] ∧
    c10m.selected_opnsense_profile_id = some "o1" ∧
    c10m.selected_user_profile_id = some "u1" := by
  have hload : ConfigManager.load_from_payload (fun _ => "g") (fun _ => "h") "d1" "d2"
      c10payload = some c10m := rfl
  have hinv := c10_load_invariants (fun _ => "g") (fun _ => "h") "d1" "d2"
    c10payload c10m hload
  exact ⟨hload, hinv.1, hinv.2.1, rfl, rfl⟩

/-- Claim C1 (amended): saving and freshly loading reproduces the manager
state exactly — profiles, users and both selection pointers — provided both
collections are non-empty, every profile has a non-empty id and name, every
OPNsense profile is already backfilled, no stored user carries the transient
rename marker, and both selection pointers name live profiles; a null pointer
is instead coerced to the first profile of its kind on load. -/
theorem c1_round_trip (m : ConfigManager)
    (ho : m.opnsense_profiles ≠ []) (hu : m.user_profiles ≠ [])
    (hop : ∀ p ∈ m.opnsense_profiles,
      p.id ≠ "" ∧ p.name ≠ "" ∧ backfillSettings p.settings = p.settings)
    (hup : ∀ p ∈ m.user_profiles,
      p.id ≠ "" ∧ p.name ≠ "" ∧ ∀ u ∈ p.users, u.original_username = none)
    (hso : ∃ s, m.selected_opnsense_profile_id = some s ∧
      s ∈ m.opnsense_profiles.map (fun p => p.id))
    (hsu : ∃ s, m.selected_user_profile_id = some s ∧
      s ∈ m.user_profiles.map (fun p => p.id))
    (fo fu : Nat → String) (d1 d2 : String) :
    ConfigManager.load_from_payload fo fu d1 d2 m.save_data = some m := by
  obtain ⟨ops, ups, selo, selu⟩ := m
  obtain ⟨s1, hs1, hs1m⟩ := hso
  obtain ⟨s2, hs2, hs2m⟩ := hsu
  replace hs1 : selo = some s1 := hs1
  replace hs2 : selu = some s2 := hs2
  subst hs1 hs2
  replace hop : ∀ p ∈ ops, p.id ≠ "" ∧ p.name ≠ "" ∧
    backfillSettings p.settings = p.settings := hop
  replace hup : ∀ p ∈ ups, p.id ≠ "" ∧ p.name ≠ "" ∧
    ∀ u ∈ p.users, u.original_username = none := hup
  replace hs1m : s1 ∈ ops.map (fun p => p.id) := hs1m
  replace hs2m : s2 ∈ ups.map (fun p => p.id) := hs2m
  have hs1ne : s1 ≠ "" := by
    obtain ⟨p, hp, hpid⟩ := List.mem_map.mp hs1m
    exact hpid ▸ (hop p hp).1
  have hs2ne : s2 ≠ "" := by
    obtain ⟨p, hp, hpid⟩ := List.mem_map.mp hs2m
    exact hpid ▸ (hup p hp).1
  cases ops with
  | nil => exact absurd rfl ho
  | cons op0 oRest =>
    cases ups with
    | nil => exact absurd rfl hu
    | cons up0 uRest =>
      have hgo : objGet (ConfigManager.save_data ⟨op0 :: oRest, up0 :: uRest, some s1, some s2⟩)
          "opnsense_profiles" =
          some (.arr ((op0 :: oRest).map (fun p => .obj p.to_dict))) := rfl
      have hgu : objGet (ConfigManager.save_data ⟨op0 :: oRest, up0 :: uRest, some s1, some s2⟩)
          "user_profiles" =
          some (.arr ((up0 :: uRest).map (fun p => .obj p.to_dict))) := rfl
      have hgso : objGet (ConfigManager.save_data ⟨op0 :: oRest, up0 :: uRest, some s1, some s2⟩)
          "selected_opnsense_profile_id" = some (.str s1) := rfl
      have hgsu : objGet (ConfigManager.save_data ⟨op0 :: oRest, up0 :: uRest, some s1, some s2⟩)
          "selected_user_profile_id" = some (.str s2) := rfl
      unfold ConfigManager.load_from_payload
      simp only [hgo, hgu, hgso, hgsu, jItemsOr_arr,
        loadOpnsenseList_map fo (op0 :: oRest) hop 0,
        loadUserProfileList_map fu (up0 :: uRest) hup 0,
        defaultedOpnsenseList, defaultedUserProfileList]
      rw [coerceSelection_keep _ hs1ne hs1m, coerceSelection_keep _ hs2ne hs2m]

/-- Assignment stores the value under the key. -/
theorem objGet_objSet_self (o : Jobj) (k : String) (v : JValue) :
    objGet (objSet o k v) k = some v := by
  induction o with
  | nil => simp [objSet, objGet]
  | cons kv rest ih =>
    obtain ⟨k1, v1⟩ := kv
    by_cases h : k1 = k
    · simp [objSet, objGet, h]
    · simp [objSet, objGet, h, ih]

/-- Assignment leaves other keys untouched. -/
theorem objGet_objSet_ne (o : Jobj) (k k' : String) (v : JValue) (h : k' ≠ k) :
    objGet (objSet o k v) k' = objGet o k' := by
  have h' : ¬ k = k' := fun hh => h hh.symm
  induction o with
  | nil => simp [objSet, objGet, h']
  | cons kv rest ih =>
    obtain ⟨k1, v1⟩ := kv
    by_cases h1 : k1 = k
    · subst h1
      simp [objSet, objGet, h']
    · simp [objSet, objGet, h1, ih]

/-- Writing back the value a key already holds changes nothing. -/
theorem objSet_same (o : Jobj) (k : String) (v : JValue)
    (h : objGet o k = some v) : objSet o k v = o := by
  induction o with
  | nil => cases h
  | cons kv rest ih =>
    obtain ⟨k1, v1⟩ := kv
    by_cases h1 : k1 = k
    · subst h1
      rw [objGet, if_pos rfl] at h
      injection h with h
      subst h
      simp [objSet]
    · rw [objGet, if_neg h1] at h
      simp [objSet, h1, ih h]

/-- Key presence after assignment. -/
theorem objHasKey_objSet (o : Jobj) (k k' : String) (v : JValue) :
    objHasKey (objSet o k v) k' = (k' = k || objHasKey o k') := by
  by_cases h : k' = k
  · subst h
    simp [objHasKey, objGet_objSet_self]
  · simp [objHasKey, objGet_objSet_ne o k k' v h, h]

/-- Lookup across an append: a hit on the left wins. -/
theorem objGet_append_left (a b : Jobj) (k : String) (v : JValue)
    (h : objGet a k = some v) : objGet (a ++ b) k = some v := by
  induction a with
  | nil => cases h
  | cons kv rest ih =>
    obtain ⟨k1, v1⟩ := kv
    by_cases h1 : k1 = k
    · subst h1
      rw [objGet, if_pos rfl] at h
      injection h with h
      subst h
      simp [objGet]
    · rw [objGet, if_neg h1] at h
      simp [objGet, h1, ih h]

/-- Lookup across an append: a miss on the left falls through. -/
theorem objGet_append_right (a b : Jobj) (k : String)
    (h : objGet a k = none) : objGet (a ++ b) k = objGet b k := by
  induction a with
  | nil => rfl
  | cons kv rest ih =>
    obtain ⟨k1, v1⟩ := kv
    by_cases h1 : k1 = k
    · subst h1
      simp [objGet] at h
    · simp only [objGet, if_neg h1] at h
      simp [objGet, h1, ih h]

/-- A stored pair makes its key present. -/
theorem mem_objHasKey (o : Jobj) (kv : String × JValue) (h : kv ∈ o) :
    objHasKey o kv.1 = true := by
  induction o with
  | nil => cases h
  | cons kv1 rest ih =>
    obtain ⟨k1, v1⟩ := kv1
    by_cases h1 : k1 = kv.1
    · simp [objHasKey, objGet, h1]
    · rcases List.mem_cons.mp h with rfl | h
      · exact absurd rfl h1
      · simpa [objHasKey, objGet, h1] using ih h

/-- A successful lookup returns a stored pair. -/
theorem objGet_mem (o : Jobj) (k : String) (v : JValue)
    (h : objGet o k = some v) : (k, v) ∈ o := by
  induction o with
  | nil => cases h
  | cons kv rest ih =>
    obtain ⟨k1, v1⟩ := kv
    by_cases h1 : k1 = k
    · subst h1
      rw [objGet, if_pos rfl] at h
      injection h with h
      subst h
      exact List.mem_cons_self _ _
    · rw [objGet, if_neg h1] at h
      exact List.mem_cons_of_mem _ (ih h)

/-- Head decomposition of deep key-distinctness. -/
theorem nodupKeysDeep_head (k1 : String) (v1 : JValue) (rest : Jobj)
    (h : nodupKeysDeep ((k1, v1) :: rest) = true) :
    objHasKey rest k1 = false ∧ nodupKeysDeep rest = true := by
  cases v1 <;>
      rw [nodupKeysDeep] at h <;>
    first
    | exact fun o h' => JValue.noConfusion h'
    | (simp only [Bool.and_eq_true, Bool.not_eq_true'] at h
       first
       | exact ⟨h.1.1, h.2⟩
       | exact ⟨h.1, h.2⟩)

/-- With pairwise-distinct keys, looking up a stored pair returns its own
value. -/
theorem nodup_objGet_self (o : Jobj) (h : nodupKeysDeep o = true) :
    ∀ kv ∈ o, objGet o kv.1 = some kv.2 := by
  induction o with
  | nil => intro kv hkv; cases hkv
  | cons kv1 rest ih =>
    intro kv hkv
    obtain ⟨k1, v1⟩ := kv1
    obtain ⟨hk1, hrest⟩ := nodupKeysDeep_head k1 v1 rest h
    rcases List.mem_cons.mp hkv with rfl | hkv
    · simp [objGet]
    · have hne : k1 ≠ kv.1 := by
        intro he
        rw [he, mem_objHasKey rest kv hkv] at hk1
        cases hk1
      simp only [objGet, if_neg hne]
      exact ih hrest kv hkv

/-- Nested tables of a deeply key-distinct table are deeply key-distinct. -/
theorem nodup_sub (o : Jobj) (h : nodupKeysDeep o = true) (k : String) (o2 : Jobj)
    (hmem : (k, JValue.obj o2) ∈ o) : nodupKeysDeep o2 = true := by
  induction o with
  | nil => cases hmem
  | cons kv1 rest ih =>
    obtain ⟨k1, v1⟩ := kv1
    rcases List.mem_cons.mp hmem with heq | hmem
    · cases heq
      rw [nodupKeysDeep] at h
      simp only [Bool.and_eq_true, Bool.not_eq_true'] at h
      exact h.1.2
    · exact ih (nodupKeysDeep_head k1 v1 rest h).2 hmem

/-- Key presence across an append. -/
theorem objHasKey_append (a b : Jobj) (k : String) :
    objHasKey (a ++ b) k = (objHasKey a k || objHasKey b k) := by
  cases hg : objGet a k with
  | none => simp [objHasKey, objGet_append_right a b k hg, hg]
  | some v => simp [objHasKey, objGet_append_left a b k v hg, hg]

/-- Key presence at a cons cell. -/
theorem objHasKey_cons (k1 : String) (v1 : JValue) (rest : Jobj) (k : String) :
    objHasKey ((k1, v1) :: rest) k = true ↔ (k1 = k ∨ objHasKey rest k = true) := by
  by_cases h : k1 = k
  · simp [objHasKey, objGet, h]
  · simp [objHasKey, objGet, h]

/-- `setdefault` never changes a present key. -/
theorem setdefaults_get_present (D : Jobj) : ∀ (c : Jobj) (k : String) (v : JValue),
    objGet c k = some v → objGet (setdefaults c D) k = some v := by
  induction D with
  | nil => intro c k v h; rw [setdefaults]; exact h
  | cons kv rest ih =>
    intro c k v h
    obtain ⟨k1, v1⟩ := kv
    rw [setdefaults]
    apply ih
    by_cases hc : objHasKey c k1 = true
    · rw [if_pos hc]; exact h
    · rw [if_neg hc]; exact objGet_append_left c _ k v h

/-- `setdefault` fills a missing key from the first default occurrence. -/
theorem setdefaults_get_missing (D : Jobj) : ∀ (c : Jobj) (k : String) (dv : JValue),
    objGet c k = none → objGet D k = some dv →
    objGet (setdefaults c D) k = some dv := by
  induction D with
  | nil => intro c k dv _ h2; cases h2
  | cons kv rest ih =>
    intro c k dv h1 h2
    obtain ⟨k1, v1⟩ := kv
    rw [setdefaults]
    by_cases hk : k1 = k
    · subst hk
      rw [objGet, if_pos rfl] at h2
      injection h2 with h2
      subst h2
      have hc : ¬ objHasKey c k1 = true := by rw [objHasKey, h1]; simp
      rw [if_neg hc]
      exact setdefaults_get_present rest _ k1 v1
        (by rw [objGet_append_right c _ k1 h1]; simp [objGet])
    · rw [objGet, if_neg hk] at h2
      by_cases hc : objHasKey c k1 = true
      · rw [if_pos hc]; exact ih c k dv h1 h2
      · rw [if_neg hc]
        apply ih _ k dv _ h2
        rw [objGet_append_right c _ k h1]
        simp [objGet, hk]

/-- The keys after `setdefault` are the union of both key sets. -/
theorem setdefaults_has_iff (D : Jobj) : ∀ (c : Jobj) (k : String),
    objHasKey (setdefaults c D) k = true ↔
      (objHasKey c k = true ∨ objHasKey D k = true) := by
  induction D with
  | nil => intro c k; rw [setdefaults]; simp [objHasKey, objGet]
  | cons kv rest ih =>
    intro c k
    obtain ⟨k1, v1⟩ := kv
    rw [setdefaults, ih, objHasKey_cons]
    by_cases hc : objHasKey c k1 = true
    · rw [if_pos hc]
      constructor
      · rintro (h | h)
        exacts [Or.inl h, Or.inr (Or.inr h)]
      · rintro (h | h | h)
        · exact Or.inl h
        · exact Or.inl (h ▸ hc)
        · exact Or.inr h
    · rw [if_neg hc]
      simp only [objHasKey_append, Bool.or_eq_true]
      have hone : objHasKey [(k1, v1)] k = true ↔ k1 = k := by
        by_cases h : k1 = k <;> simp [objHasKey, objGet, h]
      rw [hone]
      tauto

/-- Every default key is present after `setdefault`. -/
theorem setdefaults_covered (D c : Jobj) (kv : String × JValue) (h : kv ∈ D) :
    objHasKey (setdefaults c D) kv.1 = true := by
  rw [setdefaults_has_iff]
  exact Or.inr (mem_objHasKey D kv h)

/-- When every default key is already present, `setdefault` is the identity. -/
theorem setdefaults_of_covered (D : Jobj) : ∀ (c : Jobj),
    (∀ kv ∈ D, objHasKey c kv.1 = true) → setdefaults c D = c := by
  induction D with
  | nil => intro c _; rw [setdefaults]
  | cons kv rest ih =>
    intro c h
    obtain ⟨k1, v1⟩ := kv
    rw [setdefaults]
    rw [if_pos (h (k1, v1) (List.mem_cons_self _ _))]
    exact ih c (fun kv hkv => h kv (List.mem_cons_of_mem _ hkv))

/-- Unfolding one default pair of the recursive merge. -/
theorem mergeDefaults_cons (t : Jobj) (k : String) (dv : JValue) (rest : Jobj) :
    mergeDefaults t ((k, dv) :: rest) = mergeDefaults (mergeStep t k dv) rest := rfl

/-- A merge step leaves other keys alone. -/
theorem mergeStep_get_ne (t : Jobj) (k1 : String) (dv : JValue) (k : String)
    (hne : k ≠ k1) : objGet (mergeStep t k1 dv) k = objGet t k := by
  unfold mergeStep
  cases hg : objGet t k1 with
  | none => exact objGet_objSet_ne t k1 k dv hne
  | some tv =>
    cases dv <;> cases tv <;> first | exact objGet_objSet_ne t k1 k _ hne | rfl

/-- A merge step fills a missing key with the default. -/
theorem mergeStep_get_self_none (t : Jobj) (k1 : String) (dv : JValue)
    (hg : objGet t k1 = none) : objGet (mergeStep t k1 dv) k1 = some dv := by
  unfold mergeStep
  rw [hg]
  exact objGet_objSet_self t k1 dv

/-- A merge step merges recursively when both sides hold dicts. -/
theorem mergeStep_get_self_both (t : Jobj) (k1 : String) (dvo tvo : Jobj)
    (hg : objGet t k1 = some (JValue.obj tvo)) :
    objGet (mergeStep t k1 (JValue.obj dvo)) k1 =
      some (JValue.obj (mergeDefaults tvo dvo)) := by
  unfold mergeStep
  rw [hg]
  exact objGet_objSet_self t k1 _

/-- A merge step keeps the present value when the two sides are not both
dicts. -/
theorem mergeStep_get_self_keep (t : Jobj) (k1 : String) (dv tv : JValue)
    (hg : objGet t k1 = some tv)
    (h : (∀ o, dv ≠ JValue.obj o) ∨ (∀ o, tv ≠ JValue.obj o)) :
    objGet (mergeStep t k1 dv) k1 = some tv := by
  unfold mergeStep
  rw [hg]
  cases dv <;> cases tv <;>
    first
    | exact hg
    | (rcases h with h1 | h1 <;> exact absurd rfl (h1 _))

/-- The keys after a merge step are the target keys plus the default key. -/
theorem mergeStep_has_iff (t : Jobj) (k1 : String) (dv : JValue) (k : String) :
    objHasKey (mergeStep t k1 dv) k = true ↔ (k = k1 ∨ objHasKey t k = true) := by
  unfold mergeStep
  cases hg : objGet t k1 with
  | none => simp [objHasKey_objSet]
  | some tv =>
    have htk : objHasKey t k1 = true := by rw [objHasKey, hg]; rfl
    have keep : objHasKey t k = true ↔ (k = k1 ∨ objHasKey t k = true) := by
      constructor
      · exact Or.inr
      · rintro (rfl | h)
        · exact htk
        · exact h
    cases dv <;> cases tv <;> first | exact keep | simp [mergeValue, objHasKey_objSet]

/-- Head decomposition of deep key-distinctness at a nested table. -/
theorem nodupKeysDeep_head_obj (k : String) (o : Jobj) (rest : Jobj)
    (h : nodupKeysDeep ((k, JValue.obj o) :: rest) = true) :
    nodupKeysDeep o = true := by
  have h2 : (!objHasKey rest k && nodupValue (JValue.obj o) && nodupKeysDeep rest)
      = true := h
  simp only [Bool.and_eq_true] at h2
  exact h2.1.2

/-- A key absent from the defaults is untouched by the merge. -/
theorem mergeDefaults_get_not_in_d (d : Jobj) : ∀ (t : Jobj) (k : String),
    objGet d k = none → objGet (mergeDefaults t d) k = objGet t k := by
  induction d with
  | nil => intro t k _; rfl
  | cons kv rest ih =>
    intro t k h
    obtain ⟨k1, dv⟩ := kv
    have hne : ¬ k1 = k := by
      intro he
      rw [objGet, if_pos he] at h
      cases h
    rw [objGet, if_neg hne] at h
    rw [mergeDefaults_cons, ih _ k h]
    exact mergeStep_get_ne t k1 dv k (fun he => hne he.symm)

/-- A key missing from the target is filled with its default value. -/
theorem mergeDefaults_get_missing (d : Jobj) : ∀ (t : Jobj) (k : String) (dv : JValue),
    nodupKeysDeep d = true → objGet t k = none → objGet d k = some dv →
    objGet (mergeDefaults t d) k = some dv := by
  induction d with
  | nil => intro t k dv _ _ h2; cases h2
  | cons kv rest ih =>
    intro t k dv hnd h1 h2
    obtain ⟨k1, dv1⟩ := kv
    obtain ⟨hk1, hrest⟩ := nodupKeysDeep_head k1 dv1 rest hnd
    rw [mergeDefaults_cons]
    by_cases hk : k1 = k
    · subst hk
      rw [objGet, if_pos rfl] at h2
      injection h2 with h2
      subst h2
      have hrk : objGet rest k1 = none := by
        cases hgr : objGet rest k1 with
        | none => rfl
        | some v => rw [objHasKey, hgr] at hk1; cases hk1
      rw [mergeDefaults_get_not_in_d rest _ k1 hrk]
      exact mergeStep_get_self_none t k1 dv1 h1
    · rw [objGet, if_neg hk] at h2
      apply ih _ k dv hrest _ h2
      rw [mergeStep_get_ne t k1 dv1 k (fun he => hk he.symm)]
      exact h1

/-- A present key whose value and default are not both dicts is untouched. -/
theorem mergeDefaults_get_keep (d : Jobj) : ∀ (t : Jobj) (k : String) (tv dv : JValue),
    nodupKeysDeep d = true → objGet t k = some tv → objGet d k = some dv →
    ((∀ o, dv ≠ JValue.obj o) ∨ (∀ o, tv ≠ JValue.obj o)) →
    objGet (mergeDefaults t d) k = some tv := by
  induction d with
  | nil => intro t k tv dv _ _ h2 _; cases h2
  | cons kv rest ih =>
    intro t k tv dv hnd h1 h2 hnb
    obtain ⟨k1, dv1⟩ := kv
    obtain ⟨hk1, hrest⟩ := nodupKeysDeep_head k1 dv1 rest hnd
    rw [mergeDefaults_cons]
    by_cases hk : k1 = k
    · subst hk
      rw [objGet, if_pos rfl] at h2
      injection h2 with h2
      subst h2
      have hrk : objGet rest k1 = none := by
        cases hgr : objGet rest k1 with
        | none => rfl
        | some v => rw [objHasKey, hgr] at hk1; cases hk1
      rw [mergeDefaults_get_not_in_d rest _ k1 hrk]
      exact mergeStep_get_self_keep t k1 dv1 tv h1 hnb
    · rw [objGet, if_neg hk] at h2
      apply ih _ k tv dv hrest _ h2 hnb
      rw [mergeStep_get_ne t k1 dv1 k (fun he => hk he.symm)]
      exact h1

/-- A present key whose value and default are both dicts is replaced by the
recursive merge. -/
theorem mergeDefaults_get_both (d : Jobj) : ∀ (t : Jobj) (k : String) (tvo dvo : Jobj),
    nodupKeysDeep d = true → objGet t k = some (JValue.obj tvo) →
    objGet d k = some (JValue.obj dvo) →
    objGet (mergeDefaults t d) k = some (JValue.obj (mergeDefaults tvo dvo)) := by
  induction d with
  | nil => intro t k tvo dvo _ _ h2; cases h2
  | cons kv rest ih =>
    intro t k tvo dvo hnd h1 h2
    obtain ⟨k1, dv1⟩ := kv
    obtain ⟨hk1, hrest⟩ := nodupKeysDeep_head k1 dv1 rest hnd
    rw [mergeDefaults_cons]
    by_cases hk : k1 = k
    · subst hk
      rw [objGet, if_pos rfl] at h2
      injection h2 with h2
      subst h2
      have hrk : objGet rest k1 = none := by
        cases hgr : objGet rest k1 with
        | none => rfl
        | some v => rw [objHasKey, hgr] at hk1; cases hk1
      rw [mergeDefaults_get_not_in_d rest _ k1 hrk]
      exact mergeStep_get_self_both t k1 dvo tvo h1
    · rw [objGet, if_neg hk] at h2
      apply ih _ k tvo dvo hrest _ h2
      rw [mergeStep_get_ne t k1 dv1 k (fun he => hk he.symm)]
      exact h1

/-- The keys after a merge are the union of the target and default keys. -/
theorem mergeDefaults_has_iff (d : Jobj) : ∀ (t : Jobj) (k : String),
    objHasKey (mergeDefaults t d) k = true ↔
      (objHasKey t k = true ∨ objHasKey d k = true) := by
  induction d with
  | nil =>
    intro t k
    rw [show mergeDefaults t [] = t from rfl]
    simp [objHasKey, objGet]
  | cons kv rest ih =>
    intro t k
    obtain ⟨k1, dv1⟩ := kv
    rw [mergeDefaults_cons, ih, mergeStep_has_iff, objHasKey_cons]
    constructor
    · rintro ((rfl | h) | h)
      · exact Or.inr (Or.inl rfl)
      · exact Or.inl h
      · exact Or.inr (Or.inr h)
    · rintro (h | rfl | h)
      · exact Or.inl (Or.inr h)
      · exact Or.inl (Or.inl rfl)
      · exact Or.inr h

/-- Unfolding one default pair of the coverage check. -/
theorem coversDefaults_cons (t : Jobj) (k : String) (dv : JValue) (rest : Jobj) :
    coversDefaults t ((k, dv) :: rest) =
      ((match objGet t k with
        | none => false
        | some tv => coversValue dv tv) && coversDefaults t rest) := rfl

/-- Head decomposition of deep key-distinctness, value part included. -/
theorem nodupKeysDeep_head3 (k1 : String) (v1 : JValue) (rest : Jobj)
    (h : nodupKeysDeep ((k1, v1) :: rest) = true) :
    objHasKey rest k1 = false ∧ nodupValue v1 = true ∧ nodupKeysDeep rest = true := by
  have h2 : (!objHasKey rest k1 && nodupValue v1 && nodupKeysDeep rest) = true := h
  simp only [Bool.and_eq_true, Bool.not_eq_true'] at h2
  exact ⟨h2.1.1, h2.1.2, h2.2⟩

/-- Every stored value of a deeply key-distinct dict is deeply key-distinct. -/
theorem nodup_mem_value (o : Jobj) (h : nodupKeysDeep o = true) :
    ∀ kv ∈ o, nodupValue kv.2 = true := by
  induction o with
  | nil => intro kv hkv; cases hkv
  | cons kv1 rest ih =>
    intro kv hkv
    obtain ⟨k1, v1⟩ := kv1
    obtain ⟨_, hv, hrest⟩ := nodupKeysDeep_head3 k1 v1 rest h
    rcases List.mem_cons.mp hkv with rfl | hkv
    · exact hv
    · exact ih hrest kv hkv

mutual

/-- A dict covers any default table it extends pairwise. -/
theorem covers_of_sub : (d : Jobj) → (t : Jobj) →
    (∀ kv ∈ d, objGet t kv.1 = some kv.2) →
    (∀ kv ∈ d, nodupValue kv.2 = true) →
    coversDefaults t d = true
  | [], _, _, _ => rfl
  | (k, dv) :: rest, t, hget, hsub => by
    rw [coversDefaults_cons]
    simp only [Bool.and_eq_true]
    constructor
    · rw [hget (k, dv) (List.mem_cons_self _ _)]
      exact coversValue_self dv (hsub (k, dv) (List.mem_cons_self _ _))
    · exact covers_of_sub rest t (fun kv hkv => hget kv (List.mem_cons_of_mem _ hkv))
        (fun kv hkv => hsub kv (List.mem_cons_of_mem _ hkv))
termination_by d _ _ _ => sizeOf d
decreasing_by all_goals (simp_wf <;> omega)

/-- A deeply key-distinct value covers itself. -/
theorem coversValue_self : (v : JValue) → nodupValue v = true → coversValue v v = true
  | JValue.obj o, h =>
    covers_of_sub o o (nodup_objGet_self o h) (nodup_mem_value o h)
  | JValue.null, _ => rfl
  | JValue.bool _, _ => rfl
  | JValue.num _, _ => rfl
  | JValue.str _, _ => rfl
  | JValue.arr _, _ => rfl
termination_by v _ => sizeOf v
decreasing_by all_goals (simp_wf <;> omega)

end

/-- A deeply key-distinct dict covers itself. -/
theorem covers_refl (o : Jobj) (h : nodupKeysDeep o = true) :
    coversDefaults o o = true :=
  covers_of_sub o o (nodup_objGet_self o h) (nodup_mem_value o h)

mutual

/-- Merging defaults into a dict that already covers them changes nothing. -/
theorem merge_of_covers : (d : Jobj) → (t : Jobj) →
    coversDefaults t d = true → mergeDefaults t d = t
  | [], _, _ => rfl
  | (k, dv) :: rest, t, h => by
    rw [coversDefaults_cons] at h
    simp only [Bool.and_eq_true] at h
    obtain ⟨hkey, hrest⟩ := h
    rw [mergeDefaults_cons]
    have hstep : mergeStep t k dv = t := by
      unfold mergeStep
      cases hg : objGet t k with
      | none =>
        rw [hg] at hkey
        exact Bool.noConfusion hkey
      | some tv =>
        rw [hg] at hkey
        exact mergeValue_of_covers dv tv t k hg hkey
    rw [hstep]
    exact merge_of_covers rest t hrest
termination_by d _ _ => sizeOf d
decreasing_by all_goals (simp_wf <;> omega)

/-- A covering present value absorbs the merge of its default value. -/
theorem mergeValue_of_covers : (dv tv : JValue) → (t : Jobj) → (k : String) →
    objGet t k = some tv → coversValue dv tv = true → mergeValue t k dv tv = t
  | JValue.obj dvo, JValue.obj tvo, t, k, hg, hc => by
    show objSet t k (JValue.obj (mergeDefaults tvo dvo)) = t
    replace hc : coversDefaults tvo dvo = true := hc
    rw [merge_of_covers dvo tvo hc]
    exact objSet_same t k (JValue.obj tvo) hg
  | JValue.null, _, _, _, _, _ => rfl
  | JValue.bool _, _, _, _, _, _ => rfl
  | JValue.num _, _, _, _, _, _ => rfl
  | JValue.str _, _, _, _, _, _ => rfl
  | JValue.arr _, _, _, _, _, _ => rfl
  | JValue.obj _, JValue.null, _, _, _, _ => rfl
  | JValue.obj _, JValue.bool _, _, _, _, _ => rfl
  | JValue.obj _, JValue.num _, _, _, _, _ => rfl
  | JValue.obj _, JValue.str _, _, _, _, _ => rfl
  | JValue.obj _, JValue.arr _, _, _, _, _ => rfl
termination_by dv _ _ _ _ _ => sizeOf dv
decreasing_by all_goals (simp_wf <;> omega)

end

mutual

/-- After a merge with a deeply key-distinct default table, the result covers
the table. -/
theorem md_covers : (d : Jobj) → (t : Jobj) → nodupKeysDeep d = true →
    coversDefaults (mergeDefaults t d) d = true
  | [], _, _ => rfl
  | (k, dv) :: rest, t, hnd => by
    obtain ⟨hk1, hnv, hrest⟩ := nodupKeysDeep_head3 k dv rest hnd
    rw [mergeDefaults_cons, coversDefaults_cons]
    simp only [Bool.and_eq_true]
    have hrk : objGet rest k = none := by
      cases hgr : objGet rest k with
      | none => rfl
      | some v => rw [objHasKey, hgr] at hk1; cases hk1
    constructor
    · rw [mergeDefaults_get_not_in_d rest _ k hrk]
      cases hg : objGet t k with
      | none =>
        rw [mergeStep_get_self_none t k dv hg]
        exact coversValue_self dv hnv
      | some tv =>
        rcases md_covers_value dv tv t k hg hnv with ⟨tv2, hget2, hcov⟩
        rw [hget2]
        exact hcov
    · exact md_covers rest (mergeStep t k dv) hrest
termination_by d _ _ => sizeOf d
decreasing_by all_goals (simp_wf <;> omega)

/-- The merge step stores, at a present key, a value covering the default. -/
theorem md_covers_value : (dv tv : JValue) → (t : Jobj) → (k : String) →
    objGet t k = some tv → nodupValue dv = true →
    ∃ tv2, objGet (mergeStep t k dv) k = some tv2 ∧ coversValue dv tv2 = true
  | JValue.obj dvo, JValue.obj tvo, t, k, hg, hnv =>
    ⟨JValue.obj (mergeDefaults tvo dvo), mergeStep_get_self_both t k dvo tvo hg,
      md_covers dvo tvo hnv⟩
  | JValue.null, tv, t, k, hg, _ =>
    ⟨tv, mergeStep_get_self_keep t k _ tv hg
      (Or.inl (fun o h => JValue.noConfusion h)), rfl⟩
  | JValue.bool b, tv, t, k, hg, _ =>
    ⟨tv, mergeStep_get_self_keep t k _ tv hg
      (Or.inl (fun o h => JValue.noConfusion h)), rfl⟩
  | JValue.num n, tv, t, k, hg, _ =>
    ⟨tv, mergeStep_get_self_keep t k _ tv hg
      (Or.inl (fun o h => JValue.noConfusion h)), rfl⟩
  | JValue.str s, tv, t, k, hg, _ =>
    ⟨tv, mergeStep_get_self_keep t k _ tv hg
      (Or.inl (fun o h => JValue.noConfusion h)), rfl⟩
  | JValue.arr a, tv, t, k, hg, _ =>
    ⟨tv, mergeStep_get_self_keep t k _ tv hg
      (Or.inl (fun o h => JValue.noConfusion h)), rfl⟩
  | JValue.obj dvo, JValue.null, t, k, hg, _ =>
    ⟨JValue.null, mergeStep_get_self_keep t k _ _ hg
      (Or.inr (fun o h => JValue.noConfusion h)), rfl⟩
  | JValue.obj dvo, JValue.bool b, t, k, hg, _ =>
    ⟨JValue.bool b, mergeStep_get_self_keep t k _ _ hg
      (Or.inr (fun o h => JValue.noConfusion h)), rfl⟩
  | JValue.obj dvo, JValue.num n, t, k, hg, _ =>
    ⟨JValue.num n, mergeStep_get_self_keep t k _ _ hg
      (Or.inr (fun o h => JValue.noConfusion h)), rfl⟩
  | JValue.obj dvo, JValue.str s, t, k, hg, _ =>
    ⟨JValue.str s, mergeStep_get_self_keep t k _ _ hg
      (Or.inr (fun o h => JValue.noConfusion h)), rfl⟩
  | JValue.obj dvo, JValue.arr a, t, k, hg, _ =>
    ⟨JValue.arr a, mergeStep_get_self_keep t k _ _ hg
      (Or.inr (fun o h => JValue.noConfusion h)), rfl⟩
termination_by dv _ _ _ _ _ => sizeOf dv
decreasing_by all_goals (simp_wf <;> omega)

end

/-- Merging the same deeply key-distinct defaults twice is the same as once. -/
theorem mergeDefaults_idem (t d : Jobj) (hnd : nodupKeysDeep d = true) :
    mergeDefaults (mergeDefaults t d) d = mergeDefaults t d :=
  merge_of_covers d _ (md_covers d t hnd)

/-- The connection block always stores a `connection` dict. -/
theorem backfillConnection_eq (s : Jobj) :
    backfillConnection s = objSet s "connection" (JValue.obj (connResult s)) := by
  unfold backfillConnection connResult
  cases hg : objGet s "connection" with
  | none => rfl
  | some v => cases v <;> rfl

/-- The automation block always stores an `automation` dict. -/
theorem backfillAutomation_eq (s : Jobj) :
    backfillAutomation s = objSet s "automation" (JValue.obj (autoResult s)) := by
  unfold backfillAutomation autoResult
  cases hg : objGet s "automation" with
  | none => rfl
  | some v => cases v <;> rfl

/-- Writing the connection key does not disturb the automation key. -/
theorem autoResult_objSet_conn (s : Jobj) (v : JValue) :
    autoResult (objSet s "connection" v) = autoResult s := by
  unfold autoResult
  rw [objGet_objSet_ne s "connection" "automation" v (by decide)]

/-- What a backfilled settings dict stores under `connection`. -/
theorem backfillSettings_get_conn (s : Jobj) :
    objGet (backfillSettings s) "connection" = some (JValue.obj (connResult s)) := by
  show objGet (backfillAutomation (backfillConnection s)) "connection" = _
  rw [backfillAutomation_eq,
    objGet_objSet_ne _ "automation" "connection" _ (by decide),
    backfillConnection_eq]
  exact objGet_objSet_self s "connection" _

/-- What a backfilled settings dict stores under `automation`. -/
theorem backfillSettings_get_auto (s : Jobj) :
    objGet (backfillSettings s) "automation" = some (JValue.obj (autoResult s)) := by
  show objGet (backfillAutomation (backfillConnection s)) "automation" = _
  rw [backfillAutomation_eq, objGet_objSet_self, backfillConnection_eq,
    autoResult_objSet_conn]

/-- The backfill touches no key other than `connection` and `automation`. -/
theorem backfillSettings_get_other (s : Jobj) (k : String)
    (h1 : k ≠ "connection") (h2 : k ≠ "automation") :
    objGet (backfillSettings s) k = objGet s k := by
  show objGet (backfillAutomation (backfillConnection s)) k = _
  rw [backfillAutomation_eq, objGet_objSet_ne _ _ _ _ h2, backfillConnection_eq,
    objGet_objSet_ne _ _ _ _ h1]

/-- The connection result when the stored value is a dict. -/
theorem connResult_of_get_obj (s : Jobj) (c : Jobj)
    (h : objGet s "connection" = some (JValue.obj c)) :
    connResult s = setdefaults c DEFAULT_CONNECTION := by
  unfold connResult
  rw [h]

/-- The automation result when the stored value is a dict. -/
theorem autoResult_of_get_obj (s : Jobj) (a : Jobj)
    (h : objGet s "automation" = some (JValue.obj a)) :
    autoResult s = mergeDefaults a DEFAULT_AUTOMATION := by
  unfold autoResult
  rw [h]

/-- The automation default table has pairwise-distinct keys at every level. -/
theorem nodup_DEFAULT_AUTOMATION : nodupKeysDeep DEFAULT_AUTOMATION = true := rfl

/-- Every default connection key is present in the connection result. -/
theorem connResult_covered (s : Jobj) (kv : String × JValue)
    (h : kv ∈ DEFAULT_CONNECTION) : objHasKey (connResult s) kv.1 = true := by
  unfold connResult
  cases hg : objGet s "connection" with
  | none => exact mem_objHasKey _ kv h
  | some v =>
    cases v with
    | obj c => exact setdefaults_covered DEFAULT_CONNECTION c kv h
    | null => exact mem_objHasKey _ kv h
    | bool b => exact mem_objHasKey _ kv h
    | num n => exact mem_objHasKey _ kv h
    | str st => exact mem_objHasKey _ kv h
    | arr a => exact mem_objHasKey _ kv h

/-- Backfilling the connection result again changes nothing. -/
theorem setdefaults_connResult (s : Jobj) :
    setdefaults (connResult s) DEFAULT_CONNECTION = connResult s :=
  setdefaults_of_covered DEFAULT_CONNECTION (connResult s)
    (fun kv hkv => connResult_covered s kv hkv)

/-- The automation result covers the automation defaults. -/
theorem autoResult_covers (s : Jobj) :
    coversDefaults (autoResult s) DEFAULT_AUTOMATION = true := by
  unfold autoResult
  cases hg : objGet s "automation" with
  | none => exact covers_refl DEFAULT_AUTOMATION nodup_DEFAULT_AUTOMATION
  | some v =>
    cases v with
    | obj a => exact md_covers DEFAULT_AUTOMATION a nodup_DEFAULT_AUTOMATION
    | null => exact covers_refl DEFAULT_AUTOMATION nodup_DEFAULT_AUTOMATION
    | bool b => exact covers_refl DEFAULT_AUTOMATION nodup_DEFAULT_AUTOMATION
    | num n => exact covers_refl DEFAULT_AUTOMATION nodup_DEFAULT_AUTOMATION
    | str st => exact covers_refl DEFAULT_AUTOMATION nodup_DEFAULT_AUTOMATION
    | arr a => exact covers_refl DEFAULT_AUTOMATION nodup_DEFAULT_AUTOMATION

/-- Merging the automation defaults into the automation result changes
nothing. -/
theorem merge_autoResult (s : Jobj) :
    mergeDefaults (autoResult s) DEFAULT_AUTOMATION = autoResult s :=
  merge_of_covers DEFAULT_AUTOMATION (autoResult s) (autoResult_covers s)

/-- The connection result of a backfilled dict is the original connection
result. -/
theorem connResult_backfill (s : Jobj) :
    connResult (backfillSettings s) = connResult s := by
  rw [connResult_of_get_obj (backfillSettings s) (connResult s)
    (backfillSettings_get_conn s), setdefaults_connResult]

/-- The automation result of a backfilled dict is the original automation
result. -/
theorem autoResult_backfill (s : Jobj) :
    autoResult (backfillSettings s) = autoResult s := by
  rw [autoResult_of_get_obj (backfillSettings s) (autoResult s)
    (backfillSettings_get_auto s), merge_autoResult]

/-- The connection block is idempotent on a backfilled dict. -/
theorem backfillConnection_backfill (s : Jobj) :
    backfillConnection (backfillSettings s) = backfillSettings s := by
  rw [backfillConnection_eq, connResult_backfill]
  exact objSet_same _ "connection" _ (backfillSettings_get_conn s)

/-- The automation block is idempotent on a backfilled dict. -/
theorem backfillAutomation_backfill (s : Jobj) :
    backfillAutomation (backfillSettings s) = backfillSettings s := by
  rw [backfillAutomation_eq, autoResult_backfill]
  exact objSet_same _ "automation" _ (backfillSettings_get_auto s)

/-- The settings backfill of `OPNsenseProfile.from_dict` is idempotent. -/
theorem backfill_idem (s : Jobj) :
    backfillSettings (backfillSettings s) = backfillSettings s := by
  show backfillAutomation (backfillConnection (backfillSettings s)) = backfillSettings s
  rw [backfillConnection_backfill, backfillAutomation_backfill]

/-- C2: after `OPNsenseProfile.from_dict`, the settings hold a `connection`
dict containing every default connection key and an `automation` dict covering
the default automation table (nested tables covered wherever the stored value
is a dict); present input keys keep their values (the both-dict case merging
recursively), exactly the missing keys are filled from the defaults, and no
other settings key is disturbed.  The unconditional nested-key presence the
claim asserts fails when an input key holds a non-dict where the default holds
a table, so the nested clause here is conditional on the stored value being a
dict. -/
theorem c2_from_dict_backfill (payload : Jobj) (fresh : String) (s0 : Jobj)
    (p : OPNsenseProfile)
    (hs : jTruthyOr (objGet payload "settings") (JValue.obj []) = JValue.obj s0)
    (hp : OPNsenseProfile.from_dict fresh payload = some p) :
    (∃ c, objGet p.settings "connection" = some (JValue.obj c) ∧
      (∀ kv ∈ DEFAULT_CONNECTION, objHasKey c kv.1 = true) ∧
      ((∀ c0, objGet s0 "connection" ≠ some (JValue.obj c0)) →
        c = DEFAULT_CONNECTION) ∧
      (∀ c0, objGet s0 "connection" = some (JValue.obj c0) →
        (∀ k v0, objGet c0 k = some v0 → objGet c k = some v0) ∧
        (∀ k dv, objGet c0 k = none → objGet DEFAULT_CONNECTION k = some dv →
          objGet c k = some dv) ∧
        (∀ k, objHasKey c k = true ↔
          (objHasKey c0 k = true ∨ objHasKey DEFAULT_CONNECTION k = true)))) ∧
    (∃ a, objGet p.settings "automation" = some (JValue.obj a) ∧
      coversDefaults a DEFAULT_AUTOMATION = true ∧
      ((∀ a0, objGet s0 "automation" ≠ some (JValue.obj a0)) →
        a = DEFAULT_AUTOMATION) ∧
      (∀ a0, objGet s0 "automation" = some (JValue.obj a0) →
        (∀ k v0, objGet a0 k = some v0 →
          (objGet DEFAULT_AUTOMATION k = none ∨ (∀ o, v0 ≠ JValue.obj o) ∨
            (∃ dnv, objGet DEFAULT_AUTOMATION k = some dnv ∧
              (∀ o, dnv ≠ JValue.obj o))) →
          objGet a k = some v0) ∧
        (∀ k a0v dvo, objGet a0 k = some (JValue.obj a0v) →
          objGet DEFAULT_AUTOMATION k = some (JValue.obj dvo) →
          objGet a k = some (JValue.obj (mergeDefaults a0v dvo))) ∧
        (∀ k dv, objGet a0 k = none → objGet DEFAULT_AUTOMATION k = some dv →
          objGet a k = some dv) ∧
        (∀ k, objHasKey a k = true ↔
          (objHasKey a0 k = true ∨ objHasKey DEFAULT_AUTOMATION k = true)))) ∧
    (∀ k, k ≠ "connection" → k ≠ "automation" →
      objGet p.settings k = objGet s0 k) := by
  have hp2 : (match jTruthyOr (objGet payload "settings") (JValue.obj []) with
      | JValue.obj settings =>
        some (OPNsenseProfile.mk
          (jToStr (jTruthyOr (objGet payload "id") (JValue.str fresh)))
          (jToStr (jTruthyOr (objGet payload "name")
            (JValue.str DEFAULT_PROFILE_NAME)))
          (backfillSettings settings))
      | _ => none) = some p := hp
  rw [hs] at hp2
  injection hp2 with hp2
  have hset : p.settings = backfillSettings s0 := by rw [← hp2]
  refine ⟨⟨connResult s0, ?_, ?_, ?_, ?_⟩, ⟨autoResult s0, ?_, ?_, ?_, ?_⟩, ?_⟩
  · rw [hset]
    exact backfillSettings_get_conn s0
  · exact fun kv hkv => connResult_covered s0 kv hkv
  · intro hno
    unfold connResult
    cases hg : objGet s0 "connection" with
    | none => rfl
    | some v =>
      cases v with
      | obj c0 => exact absurd hg (hno c0)
      | null => rfl
      | bool b => rfl
      | num n => rfl
      | str st => rfl
      | arr ar => rfl
  · intro c0 hc0
    rw [connResult_of_get_obj s0 c0 hc0]
    refine ⟨?_, ?_, ?_⟩
    · exact fun k v0 hv0 => setdefaults_get_present DEFAULT_CONNECTION c0 k v0 hv0
    · exact fun k dv h1 h2 => setdefaults_get_missing DEFAULT_CONNECTION c0 k dv h1 h2
    · exact fun k => setdefaults_has_iff DEFAULT_CONNECTION c0 k
  · rw [hset]
    exact backfillSettings_get_auto s0
  · exact autoResult_covers s0
  · intro hno
    unfold autoResult
    cases hg : objGet s0 "automation" with
    | none => rfl
    | some v =>
      cases v with
      | obj a0 => exact absurd hg (hno a0)
      | null => rfl
      | bool b => rfl
      | num n => rfl
      | str st => rfl
      | arr ar => rfl
  · intro a0 ha0
    rw [autoResult_of_get_obj s0 a0 ha0]
    refine ⟨?_, ?_, ?_, ?_⟩
    · intro k v0 hv0 hdisj
      rcases hdisj with hnone | hv0n | ⟨dnv, hdnv, hdno⟩
      · rw [mergeDefaults_get_not_in_d DEFAULT_AUTOMATION a0 k hnone]
        exact hv0
      · cases hdk : objGet DEFAULT_AUTOMATION k with
        | none =>
          rw [mergeDefaults_get_not_in_d DEFAULT_AUTOMATION a0 k hdk]
          exact hv0
        | some dv =>
          exact mergeDefaults_get_keep DEFAULT_AUTOMATION a0 k v0 dv
            nodup_DEFAULT_AUTOMATION hv0 hdk (Or.inr hv0n)
      · exact mergeDefaults_get_keep DEFAULT_AUTOMATION a0 k v0 dnv
          nodup_DEFAULT_AUTOMATION hv0 hdnv (Or.inl hdno)
    · exact fun k a0v dvo h1 h2 => mergeDefaults_get_both DEFAULT_AUTOMATION a0 k
        a0v dvo nodup_DEFAULT_AUTOMATION h1 h2
    · exact fun k dv h1 h2 => mergeDefaults_get_missing DEFAULT_AUTOMATION a0 k dv
        nodup_DEFAULT_AUTOMATION h1 h2
    · exact fun k => mergeDefaults_has_iff DEFAULT_AUTOMATION a0 k
  · intro k h1 h2
    rw [hset]
    exact backfillSettings_get_other s0 k h1 h2

/-- C2 counterexample: a payload whose `automation.Lifetimes` holds the number
5 deserializes to a profile in which the recognized nested key
`automation.Lifetimes.CALifetimeDays` (present in the default table) is
absent, refuting the unconditional nested-presence clause. -/
theorem c2_counterexample :
    ∃ p, OPNsenseProfile.from_dict "f"
        [("id", JValue.str "x"), ("name", JValue.str "N"),
         ("settings", JValue.obj
           [("automation", JValue.obj [("Lifetimes", JValue.num 5)])])] =
        some p ∧
      pathHas DEFAULT_AUTOMATION ["Lifetimes", "CALifetimeDays"] = true ∧
      pathHas p.settings ["automation", "Lifetimes", "CALifetimeDays"] = false :=
  ⟨_, rfl, rfl, rfl⟩

/-- C2 witness: the backfill theorem applied to a concrete partially-populated
payload. -/
theorem c2_witness :
    ∃ a, objGet c2prof.settings "automation" = some (JValue.obj a) ∧
      coversDefaults a DEFAULT_AUTOMATION = true := by
  obtain ⟨-, ⟨a, ha, hc, -⟩, -⟩ :=
    c2_from_dict_backfill c2payload "f0" c2s0 c2prof rfl rfl
  exact ⟨a, ha, hc⟩

/-- C1 counterexample: saving a manager whose OPNsense selection pointer is
null and loading the result back yields a manager whose pointer is the first
profile id, not null — the round trip does not preserve a null pointer. -/
theorem c1_counterexample :
    ConfigManager.load_from_payload (fun _ => "g") (fun _ => "h") "d1" "d2"
        c1m0.save_data = some c1m1 ∧
      c1m1.selected_opnsense_profile_id = some "o1" ∧
      c1m0.selected_opnsense_profile_id = none :=
  ⟨rfl, rfl, rfl⟩

/-- C1 witness: the round trip reproduces a two-profile manager with live
selection pointers exactly. -/
theorem c1_witness :
    ConfigManager.load_from_payload (fun _ => "g") (fun _ => "h") "d1" "d2"
      mFix2.save_data = some mFix2 := by
  refine c1_round_trip mFix2 (List.cons_ne_nil _ _) (List.cons_ne_nil _ _) ?_ ?_
    ⟨"o1", rfl, by decide⟩ ⟨"u1", rfl, by decide⟩ (fun _ => "g") (fun _ => "h") "d1" "d2"
  · intro p hp
    rcases List.mem_cons.mp hp with rfl | hp
    · exact ⟨by decide, by decide, rfl⟩
    rcases List.mem_cons.mp hp with rfl | hp
    · exact ⟨by decide, by decide, rfl⟩
    cases hp
  · intro p hp
    rcases List.mem_cons.mp hp with rfl | hp
    · refine ⟨by decide, by decide, ?_⟩
      intro u hu
      rcases List.mem_cons.mp hu with rfl | hu
      · rfl
      cases hu
    rcases List.mem_cons.mp hp with rfl | hp
    · refine ⟨by decide, by decide, ?_⟩
      intro u hu
      cases hu
    cases hp

/-- Lowercasing fixes decimal digit characters. -/
theorem digitChar_toLower (n : Nat) (h : n < 10) :
    (Nat.digitChar n).toLower = Nat.digitChar n := by
  interval_cases n <;> decide

/-- The decimal value of a digit character. -/
theorem digitChar_val (n : Nat) (h : n < 10) :
    (Nat.digitChar n).toNat - 48 = n := by
  interval_cases n <;> decide

/-- Digit strings are never empty with positive fuel. -/
theorem decCharsAux_ne_nil (fuel n : Nat) (h : 0 < fuel) :
    decCharsAux fuel n ≠ [] := by
  cases fuel with
  | zero => omega
  | succ f =>
    show (if n < 10 then [Nat.digitChar n]
      else decCharsAux f (n / 10) ++ [Nat.digitChar (n % 10)]) ≠ []
    by_cases hn : n < 10
    · simp [hn]
    · simp [hn]

/-- Digit-string unfolding at a one-digit number. -/
theorem decCharsAux_succ_lt (f n : Nat) (hn : n < 10) :
    decCharsAux (f + 1) n = [Nat.digitChar n] := by
  show (if n < 10 then _ else _) = _
  rw [if_pos hn]

/-- Digit-string unfolding at a multi-digit number. -/
theorem decCharsAux_succ_ge (f n : Nat) (hn : ¬ n < 10) :
    decCharsAux (f + 1) n = decCharsAux f (n / 10) ++ [Nat.digitChar (n % 10)] := by
  show (if n < 10 then _ else _) = _
  rw [if_neg hn]

/-- Lowercasing fixes digit strings. -/
theorem decCharsAux_toLower (fuel : Nat) : ∀ (n : Nat),
    (decCharsAux fuel n).map Char.toLower = decCharsAux fuel n := by
  induction fuel with
  | zero => intro n; rfl
  | succ f ih =>
    intro n
    by_cases hn : n < 10
    · rw [decCharsAux_succ_lt f n hn]
      simp [digitChar_toLower n hn]
    · rw [decCharsAux_succ_ge f n hn]
      have h10 : n % 10 < 10 := Nat.mod_lt n (by omega)
      simp [ih (n / 10), digitChar_toLower _ h10]

/-- Reading back the digit string of `n` recovers `n`. -/
theorem decCharsAux_val : ∀ (fuel : Nat), ∀ (n a : Nat), n < fuel →
    decVal a (decCharsAux fuel n) =
      a * 10 ^ (decCharsAux fuel n).length + n := by
  intro fuel
  induction fuel with
  | zero => intro n a h; exact absurd h (Nat.not_lt_zero n)
  | succ f ih =>
    intro n a h
    by_cases hn : n < 10
    · rw [decCharsAux_succ_lt f n hn]
      have hv : decVal a [Nat.digitChar n] =
          10 * a + ((Nat.digitChar n).toNat - 48) := rfl
      rw [hv, digitChar_val n hn]
      simp only [List.length_singleton, pow_one]
      omega
    · rw [decCharsAux_succ_ge f n hn]
      have h10 : n / 10 < f := by omega
      have hmod : n % 10 < 10 := Nat.mod_lt n (by omega)
      have happ : decVal a (decCharsAux f (n / 10) ++ [Nat.digitChar (n % 10)]) =
          decVal (decVal a (decCharsAux f (n / 10))) [Nat.digitChar (n % 10)] := by
        simp [decVal, List.foldl_append]
      rw [happ, ih (n / 10) a h10]
      have hv : decVal (a * 10 ^ (decCharsAux f (n / 10)).length + n / 10)
          [Nat.digitChar (n % 10)] =
          10 * (a * 10 ^ (decCharsAux f (n / 10)).length + n / 10) +
            ((Nat.digitChar (n % 10)).toNat - 48) := rfl
      rw [hv, digitChar_val (n % 10) hmod, List.length_append,
        List.length_singleton, pow_succ]
      have hdm : 10 * (n / 10) + n % 10 = n := Nat.div_add_mod n 10
      set L := (decCharsAux f (n / 10)).length
      calc 10 * (a * 10 ^ L + n / 10) + n % 10
          = a * (10 ^ L * 10) + (10 * (n / 10) + n % 10) := by ring
        _ = a * (10 ^ L * 10) + n := by rw [hdm]

/-- Decimal printing is injective. -/
theorem natStr_inj (i j : Nat) (h : (natStr i).data = (natStr j).data) : i = j := by
  have hvi := decCharsAux_val (i + 1) i 0 (by omega)
  have hvj := decCharsAux_val (j + 1) j 0 (by omega)
  have h3 : decCharsAux (i + 1) i = decCharsAux (j + 1) j := h
  rw [h3] at hvi
  simp only [Nat.zero_mul, Nat.zero_add] at hvi hvj
  omega

/-- Lowercasing fixes printed numbers. -/
theorem natStr_toLower (n : Nat) :
    (natStr n).data.map Char.toLower = (natStr n).data :=
  decCharsAux_toLower (n + 1) n

/-- Printed numbers are non-empty. -/
theorem natStr_ne_nil (n : Nat) : (natStr n).data ≠ [] :=
  decCharsAux_ne_nil (n + 1) n (by omega)

/-- The first copy candidate: the base with the plain suffix. -/
theorem format_copy_name_one_data (cb : String) :
    (format_copy_name cb " (copy)" 1).data = cb.data ++ " (copy)".data := rfl

/-- A later copy candidate: the base with the numbered suffix. -/
theorem format_copy_name_ge_two_data (cb : String) (i : Nat) (h : 2 ≤ i) :
    (format_copy_name cb " (copy)" i).data =
      ((cb.data ++ " (copy".data) ++ " ".data) ++ (natStr i).data ++ ")".data := by
  unfold format_copy_name
  rw [if_neg (by omega : ¬ i ≤ 1)]
  rw [if_neg (show ¬ hasPlaceholder " (copy)".data = true by decide)]
  rw [if_pos (show " (copy)".data.getLast? = some (Char.ofNat 41) by decide)]
  rfl

/-- Distinct suffix indices give case-insensitively distinct candidates. -/
theorem cand_inj (cb : String) (i j : Nat) (hi : 1 ≤ i) (hj : 1 ≤ j)
    (h : pyLower (format_copy_name cb " (copy)" i) =
      pyLower (format_copy_name cb " (copy)" j)) : i = j := by
  have hd : (format_copy_name cb " (copy)" i).data.map Char.toLower =
      (format_copy_name cb " (copy)" j).data.map Char.toLower := congrArg String.data h
  rcases Nat.lt_or_ge i 2 with hi2 | hi2 <;> rcases Nat.lt_or_ge j 2 with hj2 | hj2
  · omega
  · exfalso
    have hi1 : i = 1 := by omega
    subst hi1
    rw [format_copy_name_one_data, format_copy_name_ge_two_data cb j hj2] at hd
    have hlen := congrArg List.length hd
    simp only [List.length_map, List.length_append] at hlen
    have hnj : 0 < (natStr j).data.length := List.length_pos.mpr (natStr_ne_nil j)
    rw [show " (copy)".data.length = 7 from rfl, show " (copy".data.length = 6 from rfl,
      show " ".data.length = 1 from rfl, show ")".data.length = 1 from rfl] at hlen
    omega
  · exfalso
    have hj1 : j = 1 := by omega
    subst hj1
    rw [format_copy_name_one_data, format_copy_name_ge_two_data cb i hi2] at hd
    have hlen := congrArg List.length hd
    simp only [List.length_map, List.length_append] at hlen
    have hni : 0 < (natStr i).data.length := List.length_pos.mpr (natStr_ne_nil i)
    rw [show " (copy)".data.length = 7 from rfl, show " (copy".data.length = 6 from rfl,
      show " ".data.length = 1 from rfl, show ")".data.length = 1 from rfl] at hlen
    omega
  · rw [format_copy_name_ge_two_data cb i hi2, format_copy_name_ge_two_data cb j hj2] at hd
    simp only [List.map_append] at hd
    rw [natStr_toLower i, natStr_toLower j,
      show " (copy".data.map Char.toLower = " (copy".data from by decide,
      show " ".data.map Char.toLower = " ".data from by decide,
      show ")".data.map Char.toLower = ")".data from by decide] at hd
    have h2 : (natStr i).data = (natStr j).data :=
      List.append_cancel_left (List.append_cancel_right hd)
    exact natStr_inj i j h2

/-- Among the first `taken.length + 1` candidates some candidate is free. -/
theorem exists_free_candidate (cb : String) (taken : List String) :
    ∃ i, 1 ≤ i ∧ i ≤ taken.length + 1 ∧
      pyLower (format_copy_name cb " (copy)" i) ∉ taken.map pyLower := by
  by_contra hcon
  push_neg at hcon
  have hmaps : ∀ i ∈ Finset.Icc 1 (taken.length + 1),
      pyLower (format_copy_name cb " (copy)" i) ∈ (taken.map pyLower).toFinset := by
    intro i hi
    rw [List.mem_toFinset]
    obtain ⟨h1, h2⟩ := Finset.mem_Icc.mp hi
    exact hcon i h1 h2
  have hcard : (taken.map pyLower).toFinset.card <
      (Finset.Icc 1 (taken.length + 1)).card := by
    have h1 : (taken.map pyLower).toFinset.card ≤ taken.length := by
      calc (taken.map pyLower).toFinset.card ≤ (taken.map pyLower).length :=
            List.toFinset_card_le _
        _ = taken.length := List.length_map _ _
    rw [Nat.card_Icc]
    omega
  obtain ⟨x, hx, y, hy, hxy, hfeq⟩ :=
    Finset.exists_ne_map_eq_of_card_lt_of_maps_to hcard hmaps
  obtain ⟨hx1, -⟩ := Finset.mem_Icc.mp hx
  obtain ⟨hy1, -⟩ := Finset.mem_Icc.mp hy
  exact hxy (cand_inj cb x y hx1 hy1 hfeq)

/-- The search loop returns the first free candidate at or after its start
index, given enough fuel. -/
theorem makeUniqueNameLoop_first_free (cb fmt : String) (tl : List String) :
    ∀ (fuel i j : Nat), i ≤ j → j < i + fuel →
    pyLower (format_copy_name cb fmt j) ∉ tl →
    (∀ l, i ≤ l → l < j → pyLower (format_copy_name cb fmt l) ∈ tl) →
    makeUniqueNameLoop cb fmt tl fuel i = format_copy_name cb fmt j := by
  intro fuel
  induction fuel with
  | zero => intro i j h1 h2 _ _; omega
  | succ f ih =>
    intro i j h1 h2 hfree hbusy
    show (if pyLower (format_copy_name cb fmt i) ∈ tl then
        makeUniqueNameLoop cb fmt tl f (i + 1) else format_copy_name cb fmt i) =
      format_copy_name cb fmt j
    rcases Nat.eq_or_lt_of_le h1 with rfl | hlt
    · rw [if_neg hfree]
    · rw [if_pos (hbusy i le_rfl hlt)]
      exact ih (i + 1) j hlt (by omega) hfree (fun l hl1 hl2 => hbusy l (by omega) hl2)

/-- C9: `make_unique_name` returns the stripped (or defaulted) base when it is
case-insensitively free, and otherwise the first case-insensitively free
candidate of the copy-suffix sequence; the two spec examples compute as
stated. -/
theorem c9_make_unique_name (base : String) (taken : List String) :
    (pyLower (candidateBase base) ∉ taken.map pyLower →
      make_unique_name base taken " (copy)" = candidateBase base) ∧
    (pyLower (candidateBase base) ∈ taken.map pyLower →
      ∃ j, 1 ≤ j ∧
        pyLower (format_copy_name (candidateBase base) " (copy)" j) ∉
          taken.map pyLower ∧
        (∀ l, 1 ≤ l → l < j →
          pyLower (format_copy_name (candidateBase base) " (copy)" l) ∈
            taken.map pyLower) ∧
        make_unique_name base taken " (copy)" =
          format_copy_name (candidateBase base) " (copy)" j) ∧
    make_unique_name "Foo" ["Foo"] " (copy)" = "Foo (copy)" ∧
    make_unique_name "Foo" ["Foo", "Foo (copy)"] " (copy)" = "Foo (copy 2)" := by
  refine ⟨?_, ?_, rfl, rfl⟩
  · intro h
    show (if pyLower (candidateBase base) ∈ taken.map pyLower then
        makeUniqueNameLoop (candidateBase base) " (copy)" (taken.map pyLower)
          (taken.length + 1) 1
      else candidateBase base) = candidateBase base
    rw [if_neg h]
  · intro h
    have hex2 : ∃ i, 1 ≤ i ∧
        pyLower (format_copy_name (candidateBase base) " (copy)" i) ∉
          taken.map pyLower := by
      obtain ⟨i, h1, _, h3⟩ := exists_free_candidate (candidateBase base) taken
      exact ⟨i, h1, h3⟩
    refine ⟨Nat.find hex2, (Nat.find_spec hex2).1, (Nat.find_spec hex2).2, ?_, ?_⟩
    · intro l hl1 hl2
      by_contra hcon
      exact Nat.find_min hex2 hl2 ⟨hl1, hcon⟩
    · show (if pyLower (candidateBase base) ∈ taken.map pyLower then
          makeUniqueNameLoop (candidateBase base) " (copy)" (taken.map pyLower)
            (taken.length + 1) 1
        else candidateBase base) =
        format_copy_name (candidateBase base) " (copy)" (Nat.find hex2)
      rw [if_pos h]
      apply makeUniqueNameLoop_first_free
      · exact (Nat.find_spec hex2).1
      · obtain ⟨i, h1, h2, h3⟩ := exists_free_candidate (candidateBase base) taken
        have hle : Nat.find hex2 ≤ i := Nat.find_min' hex2 ⟨h1, h3⟩
        omega
      · exact (Nat.find_spec hex2).2
      · intro l hl1 hl2
        by_contra hcon
        exact Nat.find_min hex2 hl2 ⟨hl1, hcon⟩

/-- C9 witness: the collision branch of the theorem at the spec example. -/
theorem c9_witness :
    ∃ j, 1 ≤ j ∧
      pyLower (format_copy_name (candidateBase "Foo") " (copy)" j) ∉
        ["Foo", "Foo (copy)"].map pyLower ∧
      (∀ l, 1 ≤ l → l < j →
        pyLower (format_copy_name (candidateBase "Foo") " (copy)" l) ∈
          ["Foo", "Foo (copy)"].map pyLower) ∧
      make_unique_name "Foo" ["Foo", "Foo (copy)"] " (copy)" =
        format_copy_name (candidateBase "Foo") " (copy)" j := by
  obtain ⟨-, h, -, -⟩ := c9_make_unique_name "Foo" ["Foo", "Foo (copy)"]
  exact h (by decide)
